import Mathlib

/-!
# ChatPilot browser-automation agent: a shallow embedding

This file embeds the core of the ChatPilot browser agent in Lean 4 and proves
properties of it.  The embedded components are:

* the content-script action executor and sequencer
  (`src/extension/content_script.js`: `executeAction`, `executeActions`), and the
  alternate content-script variant (`src/unnamed/part_000`), embedded as
  `executeActionAlt` / `executeActionsAlt`;
* the DOM scraper (`scrapeDOM`, `isElementVisible`, `getElementType`,
  `getElementLabel` of the content script; both variants are line-identical);
* the backend resolver (`src/backend/routes/agent.js`: `findBestMatch`,
  `generateDemoActions`, `generateActionsWithLLM`);
* the side-panel agent controller (`src/extension/sidepanel.js`:
  `executeActions` of the panel class, embedded as `ctrlExecuteActions`).

JavaScript strings are Lean `String`s manipulated through their character
lists (the built-in `String.toLower`/`String.trim` do not reduce in the
kernel, so character-level equivalents are defined here).  JavaScript numbers
that stay integral are `Nat`/`Int`; the one place the source produces the
fractional factor 1.5 (`findBestMatch` scores) is embedded in half-units so
that every score is a natural number (see `elementScore`).  Fallible
JavaScript code (thrown exceptions) is embedded with `Except`.  Browser and
network primitives (the DOM, `chrome.*`, `fetch`) are embedded as explicit
state and oracle inputs.
-/

/-! ## JavaScript-style string and number helpers -/

/-- JS `x || d` for an optional number: `0` and `undefined` are falsy. -/
def jsOrNat (x : Option Nat) (d : Nat) : Nat :=
  match x with
  | some n => if n = 0 then d else n
  | none => d

/-- JS `x || d` for an optional string: `""` and `undefined` are falsy. -/
def jsOrStr (x : Option String) (d : String) : String :=
  match x with
  | some s => if s = "" then d else s
  | none => d

/-- JS string coercion of a possibly-`undefined` string value, as performed by
template interpolation and by DOM string sinks: `undefined` becomes the
string `"undefined"`. -/
def jsTpl (x : Option String) : String := x.getD "undefined"

/-- JS `hay.includes(needle)`: substring test. -/
def strIncludes (hay needle : String) : Bool :=
  (List.range (hay.data.length + 1)).any (fun i => needle.data.isPrefixOf (hay.data.drop i))

/-- JS `s.startsWith(p)`. -/
def strStarts (s p : String) : Bool := p.data.isPrefixOf s.data

/-- JS `s.toLowerCase()` (character-wise, as for the ASCII data the agent
handles). -/
def lowerStr (s : String) : String := String.mk (s.data.map Char.toLower)

/-- JS `s.trim()`: strip leading and trailing whitespace. -/
def trimStr (s : String) : String :=
  String.mk (((s.data.dropWhile Char.isWhitespace).reverse.dropWhile Char.isWhitespace).reverse)

/-- JS `s.substring(0, n)`: the first `n` characters. -/
def takeStr (s : String) (n : Nat) : String := String.mk (s.data.take n)

/-- Little-endian decimal digit list, incremented by one. -/
def digitsSucc : List Nat → List Nat
  | [] => [1]
  | d :: rest => if d = 9 then 0 :: digitsSucc rest else (d + 1) :: rest

/-- Little-endian decimal digits of `n`. -/
def natDigits : Nat → List Nat
  | 0 => [0]
  | n + 1 => digitsSucc (natDigits n)

/-- Decimal rendering of a natural number (JS number-to-string for the
integral counters the agent uses). -/
def natToString (n : Nat) : String :=
  String.mk (((natDigits n).reverse).map Nat.digitChar)

/-- The agent ID minted by the scraper: `agent-<n>`. -/
def agentName (n : Nat) : String := "agent-" ++ natToString n

/-- Value of a little-endian decimal digit list (used to invert `natDigits`). -/
def digitsVal : List Nat → Nat
  | [] => 0
  | d :: rest => d + 10 * digitsVal rest

/-- JS `s.split(/\s+/)`: split on maximal whitespace runs.  A leading
(resp. trailing) whitespace run contributes a leading (resp. trailing) empty
string, exactly as the JS regex split does. -/
def splitWSGo : List Char → Bool → List Char → List String
  | [], skipping, cur => if skipping then [""] else [String.mk cur.reverse]
  | c :: rest, skipping, cur =>
    if skipping then
      if c.isWhitespace then splitWSGo rest true []
      else splitWSGo rest false [c]
    else
      if c.isWhitespace then String.mk cur.reverse :: splitWSGo rest true []
      else splitWSGo rest false (c :: cur)

/-- JS `s.split(/\s+/)`. -/
def jsSplitWS (s : String) : List String := splitWSGo s.data false []

/-! ## Actions and execution results (the wire shapes of `content_script.js`)

A JS action is a plain object; unrecognized `type` strings are possible, and
every field other than `type` may be absent.  `JsOptions` lists every option
field read by the code together with `durationMs`, which the specification
mentions for WAIT (the wire format may carry it, whether or not the code
reads it). -/

structure JsOptions where
  amount : Option Nat := none
  direction : Option String := none
  duration : Option Nat := none
  durationMs : Option Nat := none
  checked : Option Bool := none
deriving DecidableEq, Repr

structure JsAction where
  type : String
  targetId : Option String := none
  value : Option String := none
  options : Option JsOptions := none
  continueOnError : Bool := false
  description : Option String := none
deriving DecidableEq, Repr

/-- A per-action result object.  The source returns ad-hoc object literals;
the union of their fields is collected here, absent fields being `none`. -/
structure ExecResult where
  success : Bool
  error : Option String := none
  action : Option String := none
  targetId : Option String := none
  value : Option String := none
  url : Option String := none
  direction : Option String := none
  amount : Option Nat := none
  duration : Option Nat := none
deriving DecidableEq, Repr

/-! ## The live page as the executor sees it

`executeAction` touches an element only through: the `data-agent-id`
attribute (lookup), `tagName`, `isContentEditable`, `value`, `checked`, and
the synthetic events/`click()` call.  A click may run arbitrary page
handlers; a handler that throws is modeled by `clickError`.  Window-level
state touched is the scroll offset and `location.href`. -/

structure PageElement where
  agentId : Option String := none
  tagName : String := "DIV"
  isContentEditable : Bool := false
  value : String := ""
  innerText : String := ""
  checked : Bool := false
  clickError : Option String := none
deriving DecidableEq, Repr

structure Dom where
  elements : List PageElement := []
  scrollY : Int := 0
  href : String := ""
deriving DecidableEq, Repr

/-- Outcome of one action: the returned result object, the page state after
the action, and the list of `sleep` durations awaited (in ms, in order). -/
structure ExecOutcome where
  result : ExecResult
  dom : Dom
  slept : List Nat
deriving DecidableEq, Repr

/-- `document.querySelector('[data-agent-id="<key>"]')`: first match in
document order. -/
def lookupTarget (dom : Dom) (key : String) : Option PageElement :=
  dom.elements.find? (fun e => e.agentId = some key)

/-- Replace the first element carrying the agent ID `key` (the element
`querySelector` returned). -/
def updateFirst (key : String) (f : PageElement → PageElement) : List PageElement → List PageElement
  | [] => []
  | e :: rest => if e.agentId = some key then f e :: rest else e :: updateFirst key f rest

/-- Net effect on the focused element of the primary TYPE case: clear then
`execCommand('insertText')`.  For `INPUT`/`TEXTAREA` the value is replaced;
for a content-editable element the text is replaced; on anything else
`execCommand` is a silent no-op (the manual fallback runs only if it throws,
which is not modeled). -/
def setTypedText (v : String) (e : PageElement) : PageElement :=
  if e.tagName = "INPUT" ∨ e.tagName = "TEXTAREA" then { e with value := v }
  else if e.isContentEditable then { e with innerText := v }
  else e

/-! ## `executeAction` — primary content script (`src/extension/content_script.js`)

The body of the source `try` block is `execActionBody`; `executeAction` adds
the element-not-found guard (which runs before the `try`) and the `catch`
that converts a thrown exception into a failed result. -/

def execActionBody (dom : Dom) (a : JsAction) (el? : Option PageElement) (key : String) :
    Except String ExecResult × Dom × List Nat :=
  match a.type with
  | "CLICK" =>
    match el? with
    | none => (.error "Cannot read properties of null", dom, [])
    | some el =>
      match el.clickError with
      | some m => (.error m, dom, [200])
      | none => (.ok { success := true, action := some "clicked", targetId := a.targetId }, dom, [200])
  | "TYPE" =>
    match el? with
    | none => (.error "Cannot read properties of null", dom, [])
    | some _ =>
      (.ok { success := true, action := some "typed", targetId := a.targetId, value := a.value },
       { dom with elements := updateFirst key (setTypedText (jsTpl a.value)) dom.elements },
       [200])
  | "SCROLL" =>
    let amount := jsOrNat (a.options.bind (·.amount)) 500
    let direction := jsOrStr (a.options.bind (·.direction)) "down"
    (.ok { success := true, action := some "scrolled", direction := some direction, amount := some amount },
     { dom with scrollY := dom.scrollY + (if direction = "down" then (amount : Int) else -(amount : Int)) },
     [500])
  | "WAIT" =>
    let duration := jsOrNat (a.options.bind (·.duration)) 1000
    (.ok { success := true, action := some "waited", duration := some duration }, dom, [duration])
  | "SELECT" =>
    match el? with
    | none => (.error "Cannot read properties of null", dom, [])
    | some _ =>
      (.ok { success := true, action := some "selected", targetId := a.targetId, value := a.value },
       { dom with elements := updateFirst key (fun e => { e with value := jsTpl a.value }) dom.elements },
       [])
  | "CHECK" =>
    match el? with
    | none => (.error "Cannot read properties of null", dom, [])
    | some _ =>
      let c := (a.options.bind (·.checked)).getD true
      (.ok { success := true, action := some "checked", targetId := a.targetId },
       { dom with elements := updateFirst key (fun e => { e with checked := c }) dom.elements },
       [])
  | "OPEN_URL" =>
    (.ok { success := true, action := some "opened_url", url := a.value },
     { dom with href := jsTpl a.value }, [])
  | t => (.ok { success := false, error := some ("Unknown action type: " ++ t) }, dom, [])

def executeAction (dom : Dom) (a : JsAction) : ExecOutcome :=
  let key := jsTpl a.targetId
  let el? := lookupTarget dom key
  if el? = none ∧ a.type ≠ "SCROLL" ∧ a.type ≠ "WAIT" ∧ a.type ≠ "OPEN_URL" then
    { result := { success := false, error := some ("Element not found: " ++ key) },
      dom := dom, slept := [] }
  else
    match execActionBody dom a el? key with
    | (.error m, d, s) => { result := { success := false, error := some m }, dom := d, slept := s }
    | (.ok r, d, s) => { result := r, dom := d, slept := s }

/-! ## `executeAction` — alternate content script (`src/unnamed/part_000`)

Differences from the primary variant: the not-found guard exempts only
SCROLL and WAIT (not OPEN_URL); TYPE types character by character (value set
directly, one 30 ms sleep per character); there is no OPEN_URL case, so an
OPEN_URL action that passes the guard falls into the `default` branch. -/

def execActionBodyAlt (dom : Dom) (a : JsAction) (el? : Option PageElement) (key : String) :
    Except String ExecResult × Dom × List Nat :=
  match a.type with
  | "CLICK" =>
    match el? with
    | none => (.error "Cannot read properties of null", dom, [])
    | some el =>
      match el.clickError with
      | some m => (.error m, dom, [200])
      | none => (.ok { success := true, action := some "clicked", targetId := a.targetId }, dom, [200])
  | "TYPE" =>
    match el? with
    | none => (.error "Cannot read properties of null", dom, [])
    | some _ =>
      (.ok { success := true, action := some "typed", targetId := a.targetId, value := a.value },
       { dom with elements := updateFirst key (fun e => { e with value := jsTpl a.value }) dom.elements },
       [200] ++ List.replicate (jsTpl a.value).data.length 30)
  | "SCROLL" =>
    let amount := jsOrNat (a.options.bind (·.amount)) 500
    let direction := jsOrStr (a.options.bind (·.direction)) "down"
    (.ok { success := true, action := some "scrolled", direction := some direction, amount := some amount },
     { dom with scrollY := dom.scrollY + (if direction = "down" then (amount : Int) else -(amount : Int)) },
     [500])
  | "WAIT" =>
    let duration := jsOrNat (a.options.bind (·.duration)) 1000
    (.ok { success := true, action := some "waited", duration := some duration }, dom, [duration])
  | "SELECT" =>
    match el? with
    | none => (.error "Cannot read properties of null", dom, [])
    | some _ =>
      (.ok { success := true, action := some "selected", targetId := a.targetId, value := a.value },
       { dom with elements := updateFirst key (fun e => { e with value := jsTpl a.value }) dom.elements },
       [])
  | "CHECK" =>
    match el? with
    | none => (.error "Cannot read properties of null", dom, [])
    | some _ =>
      let c := (a.options.bind (·.checked)).getD true
      (.ok { success := true, action := some "checked", targetId := a.targetId },
       { dom with elements := updateFirst key (fun e => { e with checked := c }) dom.elements },
       [])
  | t => (.ok { success := false, error := some ("Unknown action type: " ++ t) }, dom, [])

def executeActionAlt (dom : Dom) (a : JsAction) : ExecOutcome :=
  let key := jsTpl a.targetId
  let el? := lookupTarget dom key
  if el? = none ∧ a.type ≠ "SCROLL" ∧ a.type ≠ "WAIT" then
    { result := { success := false, error := some ("Element not found: " ++ key) },
      dom := dom, slept := [] }
  else
    match execActionBodyAlt dom a el? key with
    | (.error m, d, s) => { result := { success := false, error := some m }, dom := d, slept := s }
    | (.ok r, d, s) => { result := r, dom := d, slept := s }

/-! ## `executeActions` — the sequencer (identical loop in both variants) -/

/-- The `for (const action of actions)` loop of `executeActions`: run actions
in order, stop after a failed action whose `continueOnError` flag is unset,
return the partial result list. -/
def executeActionsGen (exec : Dom → JsAction → ExecOutcome) : Dom → List JsAction → List ExecResult
  | _, [] => []
  | dom, a :: rest =>
    let o := exec dom a
    if o.result.success = false ∧ a.continueOnError = false then [o.result]
    else o.result :: executeActionsGen exec o.dom rest

def executeActions (dom : Dom) (acts : List JsAction) : List ExecResult :=
  executeActionsGen executeAction dom acts

def executeActionsAlt (dom : Dom) (acts : List JsAction) : List ExecResult :=
  executeActionsGen executeActionAlt dom acts

/-- Specification-side helper: results of executing every action of the plan
in sequence, with no halting.  `executeActionsGen` is compared against a
prefix of this list. -/
def seqResults (exec : Dom → JsAction → ExecOutcome) : Dom → List JsAction → List ExecResult
  | _, [] => []
  | dom, a :: rest =>
    let o := exec dom a
    o.result :: seqResults exec o.dom rest

/-! ## The DOM scraper (`scrapeDOM` and helpers, identical in both content scripts)

A candidate element (one match of the interactive-selector query, in document
order) is embedded with exactly the data the scraper reads: computed style,
bounding rectangle (integer coordinates), tag, `type` attribute, `role`, the
label sources, `value`, `checked`, `disabled`. -/

structure StyleDecl where
  display : String := "block"
  visibility : String := "visible"
  opacity : String := "1"
deriving DecidableEq, Repr

structure Rect where
  top : Int := 0
  bottom : Int := 0
  left : Int := 0
  right : Int := 0
  width : Int := 0
  height : Int := 0
deriving DecidableEq, Repr

structure ScrapeElement where
  style : StyleDecl := {}
  rect : Rect := {}
  tagName : String := "DIV"
  typeAttr : Option String := none
  role : Option String := none
  ariaLabel : Option String := none
  title : Option String := none
  placeholder : Option String := none
  alt : Option String := none
  name : Option String := none
  innerText : Option String := none
  value : Option String := none
  checked : Option Bool := none
  disabled : Bool := false
deriving DecidableEq, Repr

structure Window where
  innerWidth : Int := 800
  innerHeight : Int := 600
  href : String := ""
  title : String := ""
  now : Nat := 0
deriving DecidableEq, Repr

structure Position where
  x : Int
  y : Int
deriving DecidableEq, Repr

structure ElementRecord where
  id : String
  type : String
  tag : String
  label : String
  value : Option String
  checked : Option Bool
  disabled : Bool
  position : Position
deriving DecidableEq, Repr

structure Viewport where
  width : Int
  height : Int
deriving DecidableEq, Repr

structure PageSnapshot where
  url : String
  title : String
  timestamp : Nat
  viewport : Viewport
  elements : List ElementRecord
deriving DecidableEq, Repr

def isElementVisible (win : Window) (e : ScrapeElement) : Bool :=
  if e.style.display = "none" ∨ e.style.visibility = "hidden" ∨ e.style.opacity = "0" then
    false
  else if e.rect.width = 0 ∨ e.rect.height = 0 then
    false
  else
    decide (e.rect.top < win.innerHeight + 100 ∧ e.rect.bottom > -100 ∧
      e.rect.left < win.innerWidth + 100 ∧ e.rect.right > -100)

def getElementType (e : ScrapeElement) : String :=
  let tag := lowerStr e.tagName
  let ty := e.typeAttr.map lowerStr
  let role := e.role
  if tag = "a" then "link"
  else if tag = "button" ∨ role = some "button" then "button"
  else if tag = "input" then
    if ty = some "submit" ∨ ty = some "button" then "button"
    else if ty = some "checkbox" then "checkbox"
    else if ty = some "radio" then "radio"
    else "input"
  else if tag = "select" then "select"
  else if tag = "textarea" then "textarea"
  else if role = some "textbox" then "input"
  else if role = some "menuitem" then "menuitem"
  else if role = some "tab" then "tab"
  else "interactive"

/-- The label sources, in the order the source lists them. -/
def labelSources (e : ScrapeElement) : List (Option String) :=
  [e.ariaLabel, e.title, e.placeholder, e.alt, e.name,
   e.innerText.map (fun s => takeStr (trimStr s) 100),
   e.value.map (fun s => takeStr s 50)]

/-- First truthy source with non-blank trim; the trimmed text is the label. -/
def getElementLabel (e : ScrapeElement) : Option String :=
  (labelSources e).findSome? (fun src =>
    match src with
    | some s => if s ≠ "" ∧ trimStr s ≠ "" then some (trimStr s) else none
    | none => none)

/-- JS `x || null` for a string field. -/
def jsValOrNull (x : Option String) : Option String :=
  match x with
  | some s => if s = "" then none else some s
  | none => none

/-- `Math.round(a + b / 2)` for integers `a`, `b` (used for the center point). -/
def jsRoundMid (a b : Int) : Int := Int.fdiv (2 * a + b + 1) 2

/-- The `allElements.forEach` loop of `scrapeDOM`.  Given the counter value
and the document-order index of the next candidate, it returns the emitted
records plus the tagging performed, as pairs (candidate index, agent ID
written to its `data-agent-id` attribute).  Note the source assigns the ID
and writes the attribute before the label check, so visible but unlabeled
candidates are tagged yet emit no record. -/
def scrapeGo (win : Window) : Nat → Nat → List ScrapeElement → List ElementRecord × List (Nat × String)
  | _, _, [] => ([], [])
  | counter, idx, e :: rest =>
    if isElementVisible win e then
      let counter1 := counter + 1
      let agentId := agentName counter1
      let out := scrapeGo win counter1 (idx + 1) rest
      match getElementLabel e with
      | none => (out.1, (idx, agentId) :: out.2)
      | some label =>
        ({ id := agentId, type := getElementType e, tag := lowerStr e.tagName, label := label,
           value := jsValOrNull e.value, checked := e.checked, disabled := e.disabled,
           position := { x := jsRoundMid e.rect.left e.rect.width,
                         y := jsRoundMid e.rect.top e.rect.height } } :: out.1,
         (idx, agentId) :: out.2)
    else scrapeGo win counter (idx + 1) rest

/-- `scrapeDOM()`.  The argument `agentIdCounterIn` is the value of the
module-level `agentIdCounter` before the call; the source resets it to zero
first, so it is discarded.  Returns the snapshot and the tagging trace. -/
def scrapeDOM (agentIdCounterIn : Nat) (win : Window) (els : List ScrapeElement) :
    PageSnapshot × List (Nat × String) :=
  let _ := agentIdCounterIn
  let out := scrapeGo win 0 0 els
  ({ url := win.href, title := win.title, timestamp := win.now,
     viewport := { width := win.innerWidth, height := win.innerHeight },
     elements := out.1 }, out.2)

/-! ## Backend resolver: `findBestMatch` (`src/backend/routes/agent.js`) -/

/-- An element record as the backend reads it off the wire: only `id`,
`type`, `label` and `disabled` are consulted, and `label` may be absent. -/
structure AgentElement where
  id : String := ""
  type : String := ""
  label : Option String := none
  disabled : Bool := false
deriving DecidableEq, Repr

/-- The `dom` argument of the backend route; `elements` may be absent. -/
structure AgentDom where
  elements : Option (List AgentElement) := none
deriving DecidableEq, Repr

/-- Score of one candidate in `findBestMatch`, in half-units.  The source
computes a float: a base of summed word lengths, `* 1.5` when the type is
preferred, `* 2` when the lowercase label equals the query verbatim.  All
such values lie in ½·ℕ and the arithmetic is exact in doubles, so this
embedding returns twice the source score: base `2 * Σ len`, boosted to
`3 * Σ len` in place of the 1.5 factor, doubled again for an exact match.
Every comparison the source performs (`score > bestScore`, `bestScore > 0`)
is preserved by the doubling. -/
def elementScore (query : String) (preferredTypes : Option (List String)) (e : AgentElement) : Nat :=
  let queryWords := jsSplitWS (lowerStr query)
  let labelLower := lowerStr (e.label.getD "")
  let base := (queryWords.map (fun w => if strIncludes labelLower w then w.data.length else 0)).sum
  let boosted :=
    if (match preferredTypes with
        | some ts => ts.contains e.type
        | none => false) then 3 * base
    else 2 * base
  if labelLower = query then 2 * boosted else boosted

/-- The candidate loop of `findBestMatch`: running best score (half-units)
and running best match, updated only on a strictly greater score. -/
def findBestMatchGo (query : String) (preferredTypes : Option (List String)) :
    List AgentElement → Nat → Option AgentElement → Nat × Option AgentElement
  | [], bestScore, best => (bestScore, best)
  | e :: rest, bestScore, best =>
    if e.disabled then findBestMatchGo query preferredTypes rest bestScore best
    else
      let score := elementScore query preferredTypes e
      if bestScore < score then findBestMatchGo query preferredTypes rest score (some e)
      else findBestMatchGo query preferredTypes rest bestScore best

def findBestMatch (elements : List AgentElement) (query : String)
    (preferredTypes : Option (List String)) : Option AgentElement :=
  let out := findBestMatchGo query preferredTypes elements 0 none
  if 0 < out.1 then out.2 else none

/-! ## A small regex engine for the fallback resolver patterns

`generateDemoActions` applies four fixed regular expressions to the
lowercased intent.  Each is a sequence drawn from this restricted grammar:
a literal, `\s+`, an optional `(?:word\s+)?`, an optional quote `["']?`, an
ordered literal alternation, and a lazy capture `(.+?)`.  `matchOne` returns
every way a single token can match a prefix of the input, as (rest, captures)
pairs in the backtracking priority order of a standard regex engine (greedy
alternatives longest-first, optional items present-first, lazy capture
shortest-first); `matchSeq` chains tokens; `jsMatch` scans start positions
left to right and requires the pattern to end at the end of the input (all
four source patterns are `$`-anchored), returning the captures of the first
match — exactly the semantics of `String.prototype.match` for these
patterns. -/

inductive RE
  | lit (s : String)
  | ws
  | optLitWs (w : String)
  | optQuote
  | altLit (ss : List String)
  | grp
deriving Repr

/-- Length of the leading whitespace run. -/
def countWs : List Char → Nat
  | [] => 0
  | c :: rest => if c.isWhitespace then countWs rest + 1 else 0

def isQuoteChar (c : Char) : Bool := c = '"' ∨ c = '\''

def matchOne : RE → List Char → List (List Char × List String)
  | .lit s, cs => if s.data.isPrefixOf cs then [(cs.drop s.data.length, [])] else []
  | .ws, cs =>
    let m := countWs cs
    (List.range m).map (fun j => (cs.drop (m - j), []))
  | .optLitWs w, cs =>
    (if w.data.isPrefixOf cs then
      (let rest := cs.drop w.data.length
       let m := countWs rest
       (List.range m).map (fun j => (rest.drop (m - j), [])))
     else []) ++ [(cs, [])]
  | .optQuote, cs =>
    match cs with
    | c :: rest => if isQuoteChar c then [(rest, []), (c :: rest, [])] else [(c :: rest, [])]
    | [] => [([], [])]
  | .altLit ss, cs =>
    ss.flatMap (fun s => if s.data.isPrefixOf cs then [(cs.drop s.data.length, [])] else [])
  | .grp, cs =>
    (List.range cs.length).map (fun k => (cs.drop (k + 1), [String.mk (cs.take (k + 1))]))

def matchSeq : List RE → List Char → List (List Char × List String)
  | [], cs => [(cs, [])]
  | r :: rs, cs =>
    (matchOne r cs).flatMap (fun p => (matchSeq rs p.1).map (fun q => (q.1, p.2 ++ q.2)))

/-- `s.match(re)` for a `$`-anchored pattern: captures of the first match. -/
def jsMatch (rs : List RE) (s : String) : Option (List String) :=
  (List.range (s.data.length + 1)).findSome? (fun i =>
    (((matchSeq rs (s.data.drop i)).filter (fun p => p.1.isEmpty)).head?).map (·.2))

/-- `/click\s+(?:on\s+)?(?:the\s+)?["']?(.+?)["']?$/i` (input already lowercase). -/
def clickPat : List RE :=
  [.lit "click", .ws, .optLitWs "on", .optLitWs "the", .optQuote, .grp, .optQuote]

/-- `/(?:type|enter|input)\s+["']?(.+?)["']?\s+(?:in|into)\s+(?:the\s+)?["']?(.+?)["']?$/i`. -/
def typePat : List RE :=
  [.altLit ["type", "enter", "input"], .ws, .optQuote, .grp, .optQuote, .ws,
   .altLit ["in", "into"], .ws, .optLitWs "the", .optQuote, .grp, .optQuote]

/-- `/search\s+(?:for\s+)?["']?(.+?)["']?$/i`. -/
def searchPat : List RE :=
  [.lit "search", .ws, .optLitWs "for", .optQuote, .grp, .optQuote]

/-! ## Backend resolver: `generateDemoActions` -/

def generateDemoActions (intent : String) (dom : AgentDom) : List JsAction :=
  let intentLower := lowerStr intent
  let elements := dom.elements.getD []
  let acts1 : List JsAction :=
    match jsMatch clickPat intentLower with
    | some caps =>
      let target := lowerStr (caps.headD "")
      match findBestMatch elements target (some ["button", "link", "interactive"]) with
      | some el => [{ type := "CLICK", targetId := some el.id,
                      description := some ("Click on \"" ++ jsTpl el.label ++ "\"") }]
      | none => []
    | none => []
  let acts2 : List JsAction :=
    match jsMatch typePat intentLower with
    | some caps =>
      let v := caps.headD ""
      let target := lowerStr (caps.getD 1 "")
      match findBestMatch elements target (some ["input", "textarea"]) with
      | some el => [{ type := "TYPE", targetId := some el.id, value := some v,
                      description := some ("Type \"" ++ v ++ "\" into \"" ++ jsTpl el.label ++ "\"") }]
      | none => []
    | none => []
  let acts3 : List JsAction :=
    if strIncludes intentLower "login" || strIncludes intentLower "sign in" then
      match findBestMatch elements "login sign in submit" (some ["button", "link"]) with
      | some el => [{ type := "CLICK", targetId := some el.id,
                      description := some ("Click login button \"" ++ jsTpl el.label ++ "\"") }]
      | none => []
    else []
  let acts4 : List JsAction :=
    match jsMatch searchPat intentLower with
    | some caps =>
      let query := caps.headD ""
      (match findBestMatch elements "search query" (some ["input"]) with
       | some el => [{ type := "TYPE", targetId := some el.id, value := some query,
                       description := some ("Type \"" ++ query ++ "\" in search box") }]
       | none => []) ++
      (match findBestMatch elements "search submit go" (some ["button"]) with
       | some el => [{ type := "CLICK", targetId := some el.id,
                       description := some "Click search button" }]
       | none => [])
    | none => []
  let acts5 : List JsAction :=
    if strIncludes intentLower "scroll" then
      let direction := if strIncludes intentLower "up" then "up" else "down"
      [{ type := "SCROLL", options := some { direction := some direction, amount := some 500 },
         description := some ("Scroll " ++ direction) }]
    else []
  let acts := acts1 ++ acts2 ++ acts3 ++ acts4 ++ acts5
  if acts.isEmpty then
    match findBestMatch elements intentLower none with
    | some el => [{ type := "CLICK", targetId := some el.id,
                    description := some ("Click on \"" ++ jsTpl el.label ++ "\"") }]
    | none => []
  else acts

/-! ## JSON values and `JSON.parse` (used by `generateActionsWithLLM`)

Numbers are kept as parsed: sign, decimal mantissa and a power-of-ten
exponent (`value = ±mant · 10^exp10`), which represents every JSON numeral
exactly and keeps the embedding computable. -/

inductive Json
  | null
  | bool (b : Bool)
  | num (neg : Bool) (mant : Nat) (exp10 : Int)
  | str (s : String)
  | arr (xs : List Json)
  | obj (kvs : List (String × Json))

def skipWsJ (cs : List Char) : List Char :=
  cs.dropWhile (fun c => c = ' ' ∨ c = '\t' ∨ c = '\n' ∨ c = '\r')

def hexVal (c : Char) : Option Nat :=
  if c.isDigit then some (c.toNat - 48)
  else if 'a' ≤ c ∧ c ≤ 'f' then some (c.toNat - 87)
  else if 'A' ≤ c ∧ c ≤ 'F' then some (c.toNat - 55)
  else none

def escChar (c : Char) : Option Char :=
  if c = '"' then some '"'
  else if c = '\\' then some '\\'
  else if c = '/' then some '/'
  else if c = 'n' then some '\n'
  else if c = 't' then some '\t'
  else if c = 'r' then some '\r'
  else if c = 'b' then some (Char.ofNat 8)
  else if c = 'f' then some (Char.ofNat 12)
  else none

/-- Body of a JSON string literal (opening quote already consumed). -/
def parseJStrGo : List Char → List Char → Option (String × List Char)
  | [], _ => none
  | c :: rest, acc =>
    if c = '"' then some (String.mk acc.reverse, rest)
    else if c = '\\' then
      match rest with
      | [] => none
      | e :: rest2 =>
        if e = 'u' then
          match rest2 with
          | h1 :: h2 :: h3 :: h4 :: rest3 =>
            match hexVal h1, hexVal h2, hexVal h3, hexVal h4 with
            | some v1, some v2, some v3, some v4 =>
              parseJStrGo rest3 (Char.ofNat (((v1 * 16 + v2) * 16 + v3) * 16 + v4) :: acc)
            | _, _, _, _ => none
          | _ => none
        else
          match escChar e with
          | some ch => parseJStrGo rest2 (ch :: acc)
          | none => none
    else parseJStrGo rest (c :: acc)

/-- Consume a maximal digit run, returning its value, its length and the rest. -/
def parseDigitsGo : List Char → Nat → Nat → Nat × Nat × List Char
  | [], v, n => (v, n, [])
  | c :: rest, v, n =>
    if c.isDigit then parseDigitsGo rest (v * 10 + (c.toNat - 48)) (n + 1)
    else (v, n, c :: rest)

/-- JSON number: `-?(0|[1-9][0-9]*)(\.[0-9]+)?([eE][+-]?[0-9]+)?`. -/
def parseJNum (cs : List Char) : Option (Json × List Char) :=
  let (neg, cs1) :=
    match cs with
    | '-' :: rest => (true, rest)
    | _ => (false, cs)
  let (iv, ilen, cs2) := parseDigitsGo cs1 0 0
  let leadZero : Bool := match cs1 with | '0' :: _ => true | _ => false
  if ilen = 0 then none
  else if 1 < ilen ∧ leadZero = true then none
  else
    let (mant1, flen, cs3) :=
      match cs2 with
      | '.' :: rest =>
        let (fv, fl, r) := parseDigitsGo rest iv 0
        (fv, fl, r)
      | _ => (iv, 0, cs2)
    let fracDot : Bool := match cs2 with | '.' :: _ => true | _ => false
    if fracDot = true ∧ flen = 0 then none
    else
      match cs3 with
      | 'e' :: rest | 'E' :: rest =>
        let (eneg, rest1) :=
          match rest with
          | '-' :: r => (true, r)
          | '+' :: r => (false, r)
          | _ => (false, rest)
        let (ev, el, cs4) := parseDigitsGo rest1 0 0
        if el = 0 then none
        else some (.num neg mant1 ((if eneg then -(ev : Int) else (ev : Int)) - (flen : Int)), cs4)
      | _ => some (.num neg mant1 (-(flen : Int)), cs3)

/-- Parser mode: a top-level value, the items of an array after `[`, or the
members of an object after `{` (in each case with the elements already
parsed). -/
inductive PMode
  | val
  | items (acc : List Json)
  | members (acc : List (String × Json))

/-- Recursive-descent JSON parser, fuel-indexed so that it is structurally
recursive (the fuel passed by `jsonParse` always suffices). -/
def parseJ : Nat → PMode → List Char → Option (Json × List Char)
  | 0, _, _ => none
  | fuel + 1, .val, cs =>
    match skipWsJ cs with
    | [] => none
    | c :: rest =>
      if c = 'n' then
        if "ull".data.isPrefixOf rest then some (.null, rest.drop 3) else none
      else if c = 't' then
        if "rue".data.isPrefixOf rest then some (.bool true, rest.drop 3) else none
      else if c = 'f' then
        if "alse".data.isPrefixOf rest then some (.bool false, rest.drop 4) else none
      else if c = '"' then
        (parseJStrGo rest []).map (fun p => (.str p.1, p.2))
      else if c = '[' then
        match skipWsJ rest with
        | ']' :: rest2 => some (.arr [], rest2)
        | _ => parseJ fuel (.items []) rest
      else if c = '\x7b' then
        match skipWsJ rest with
        | '\x7d' :: rest2 => some (.obj [], rest2)
        | _ => parseJ fuel (.members []) rest
      else if c = '-' ∨ c.isDigit then parseJNum (c :: rest)
      else none
  | fuel + 1, .items acc, cs =>
    match parseJ fuel .val cs with
    | none => none
    | some (j, r) =>
      match skipWsJ r with
      | ',' :: r2 => parseJ fuel (.items (acc ++ [j])) r2
      | ']' :: r2 => some (.arr (acc ++ [j]), r2)
      | _ => none
  | fuel + 1, .members acc, cs =>
    match skipWsJ cs with
    | '"' :: rest =>
      match parseJStrGo rest [] with
      | none => none
      | some (k, r) =>
        match skipWsJ r with
        | ':' :: r2 =>
          match parseJ fuel .val r2 with
          | none => none
          | some (j, r3) =>
            match skipWsJ r3 with
            | ',' :: r4 => parseJ fuel (.members (acc ++ [(k, j)])) r4
            | '\x7d' :: r4 => some (.obj (acc ++ [(k, j)]), r4)
            | _ => none
        | _ => none
    | _ => none

/-- `JSON.parse(s)`: `none` models a thrown `SyntaxError`. -/
def jsonParse (s : String) : Option Json :=
  match parseJ (2 * s.data.length + 2) .val s.data with
  | some (j, rest) => if (skipWsJ rest).isEmpty then some j else none
  | none => none

/-! ## `generateActionsWithLLM` (`src/backend/routes/agent.js`) -/

/-- The first match of `/\[[\s\S]*\]/` in `s`: the span from the first `[`
that has some `]` after it, through the last `]` of the string (the `[\s\S]*`
is greedy, so it backtracks only to the final `]`). -/
def jsonArraySpan (s : String) : Option String :=
  let cs := s.data
  match cs.findIdx? (fun c => c = '['), cs.reverse.findIdx? (fun c => c = ']') with
  | some i, some jr =>
    let j := cs.length - 1 - jr
    if i < j then some (String.mk ((cs.drop i).take (j - i + 1))) else none
  | _, _ => none

/-- Result of plan resolution: either the parsed reply of the reasoning
service (the contents of the JSON array, returned as-is), or the output of
the deterministic fallback resolver. -/
inductive ResolveOutcome
  | llm (items : List Json)
  | fallback (acts : List JsAction)

/-- The element list embedded in the action prompt:
`dom.elements?.slice(0, 50) || []`. -/
def promptElements (dom : AgentDom) : List AgentElement :=
  (dom.elements.map (fun es => es.take 50)).getD []

/-- `generateActionsWithLLM(intent, dom)`.  `haveKey` is the truthiness of
the resolved OpenAI key; `svc` is the outcome of the `generateWithOpenAI`
call on the action prompt (`.error` models a thrown transport/auth error).
The `try`/`catch` of the source makes every parse failure fall through to
`generateDemoActions`; when the regex finds no array span the `if` falls
through to the same place without throwing. -/
def generateActionsWithLLM (svc : Except String String) (haveKey : Bool)
    (intent : String) (dom : AgentDom) : ResolveOutcome :=
  if haveKey then
    match svc with
    | .error _ => .fallback (generateDemoActions intent dom)
    | .ok response =>
      match jsonArraySpan response with
      | some m =>
        match jsonParse m with
        | some (.arr xs) => .llm xs
        | some _ => .llm []
        | none => .fallback (generateDemoActions intent dom)
      | none => .fallback (generateDemoActions intent dom)
  else .fallback (generateDemoActions intent dom)

/-- Specification-side resolver for comparison.  Modelled from the spec
clause "parse the first JSON array literal found in the raw reply; if
parsing fails or no array is found, fall through to the deterministic
resolver": scan left to right for the first position where a JSON array
literal starts and parses, and use its contents. -/
def firstJsonArray (s : String) : Option (List Json) :=
  (List.range (s.data.length + 1)).findSome? (fun i =>
    match s.data.drop i with
    | '[' :: _ =>
      match parseJ (2 * s.data.length + 2) .val (s.data.drop i) with
      | some (.arr xs, _) => some xs
      | _ => none
    | _ => none)

/-- Specification-side counterpart of `generateActionsWithLLM`, differing
only in using the first JSON array literal of the reply. -/
def resolveSpecFirstArray (svc : Except String String) (haveKey : Bool)
    (intent : String) (dom : AgentDom) : ResolveOutcome :=
  if haveKey then
    match svc with
    | .error _ => .fallback (generateDemoActions intent dom)
    | .ok response =>
      match firstJsonArray response with
      | some xs => .llm xs
      | none => .fallback (generateDemoActions intent dom)
  else .fallback (generateDemoActions intent dom)

/-! ## The side-panel agent controller (`sidepanel.js`, `executeActions`)

The controller method is embedded as a function of: the panel state, the
intent, the `isResumption` flag, and an environment giving the outcome of
the awaited browser/network primitives — the `/api/analyze` call (which may
throw), the active-tab query, and the content-script readiness probe.  Its
output is the new panel state and a trace: which actions were forwarded to
the page-side executor (with their plan indices) and whether a navigation
was issued. -/

structure CtrlState where
  pendingIntent : Option String := none
  isExecuting : Bool := false
  contextText : String := ""
deriving DecidableEq, Repr

structure CtrlEnv where
  analyzeResult : Except String (List JsAction)
  tab : Option Nat := some 0
  isReady : Bool := true
deriving Repr

inductive LoopOut
  | nav (url : String) (fwd : List (Nat × JsAction))
  | thrown (msg : String) (fwd : List (Nat × JsAction))
  | done (fwd : List (Nat × JsAction))
deriving DecidableEq, Repr

/-- The `for (const action of response.actions)` loop.  An OPEN_URL action is
handled natively: its URL (scheme-prefixed when needed) is navigated to and
the loop stops; an OPEN_URL without a `value` throws (`.startsWith` on
`undefined`).  When the content script is not ready, element actions are
skipped (`continue`) but the loop keeps scanning for OPEN_URL. -/
def ctrlLoop (isReady : Bool) : Nat → List JsAction → LoopOut
  | _, [] => .done []
  | idx, a :: rest =>
    if a.type = "OPEN_URL" then
      match a.value with
      | none => .thrown "Cannot read properties of undefined" []
      | some u => .nav (if strStarts u "http" then u else "https://" ++ u) []
    else if isReady = false then ctrlLoop isReady (idx + 1) rest
    else
      match ctrlLoop isReady (idx + 1) rest with
      | .nav u f => .nav u ((idx, a) :: f)
      | .thrown m f => .thrown m ((idx, a) :: f)
      | .done f => .done ((idx, a) :: f)

structure CtrlTrace where
  forwarded : List (Nat × JsAction) := []
  navigated : Option String := none
deriving DecidableEq, Repr

def ctrlExecuteActions (st : CtrlState) (intent : String) (isResumption : Bool)
    (env : CtrlEnv) : CtrlState × CtrlTrace :=
  if st.isExecuting = true ∧ isResumption = false then (st, {})
  else
    let st1 : CtrlState :=
      { st with isExecuting := true, pendingIntent := some intent,
                contextText := "Analysing..." }
    match env.analyzeResult with
    | .error _ =>
      ({ st1 with contextText := "Agent Error", pendingIntent := none, isExecuting := false }, {})
    | .ok actions =>
      if 0 < actions.length then
        let st2 := { st1 with contextText := "Executing actions..." }
        match env.tab with
        | none => ({ st2 with isExecuting := false }, {})
        | some _ =>
          match ctrlLoop env.isReady 0 actions with
          | .nav url fwd =>
            ({ st2 with contextText := "Navigating...", isExecuting := false },
             { forwarded := fwd, navigated := some url })
          | .thrown _ fwd =>
            ({ st2 with contextText := "Agent Error", pendingIntent := none, isExecuting := false },
             { forwarded := fwd, navigated := none })
          | .done fwd =>
            ({ st2 with isExecuting := false }, { forwarded := fwd, navigated := none })
      else
        ({ st1 with contextText := "Task complete", pendingIntent := none, isExecuting := false }, {})

/-- Specification-side selection rule for `findBestMatch`, following the
best-match scoring clause: among non-disabled elements, the highest positive
score wins and ties go to the element seen first; if no element scores above
zero there is no match.  (Scores are in the same half-units as
`elementScore`.) -/
def specFindBestMatch (elements : List AgentElement) (query : String)
    (preferredTypes : Option (List String)) : Option AgentElement :=
  let cands := elements.filter (fun e => !e.disabled)
  let best := (cands.map (elementScore query preferredTypes)).foldr max 0
  if 0 < best then cands.find? (fun e => elementScore query preferredTypes e = best) else none

/-! # Theorems -/

/-! ## Decimal rendering: auxiliary facts -/

theorem digitsVal_digitsSucc (ds : List Nat) : digitsVal (digitsSucc ds) = digitsVal ds + 1 := by
  induction ds with
  | nil => simp [digitsSucc, digitsVal]
  | cons d rest ih =>
    by_cases h : d = 9
    · simp [digitsSucc, h, digitsVal, ih]; omega
    · simp [digitsSucc, h, digitsVal]; omega

theorem digitsVal_natDigits (n : Nat) : digitsVal (natDigits n) = n := by
  induction n with
  | zero => simp [natDigits, digitsVal]
  | succ n ih => simp [natDigits, digitsVal_digitsSucc, ih]

theorem digitsSucc_lt_ten (ds : List Nat) (h : ∀ x ∈ ds, x < 10) :
    ∀ x ∈ digitsSucc ds, x < 10 := by
  induction ds with
  | nil => simp [digitsSucc]
  | cons a rest ih =>
    by_cases ha : a = 9
    · simp only [digitsSucc, ha, if_pos rfl]
      intro x hx
      rcases List.mem_cons.mp hx with h1 | h2
      · omega
      · exact ih (fun y hy => h y (List.mem_cons_of_mem _ hy)) x h2
    · simp only [digitsSucc, if_neg ha]
      intro x hx
      rcases List.mem_cons.mp hx with h1 | h2
      · have := h a (List.mem_cons_self a rest); omega
      · exact h x (List.mem_cons_of_mem _ h2)

theorem natDigits_lt_ten (n : Nat) : ∀ d ∈ natDigits n, d < 10 := by
  induction n with
  | zero => simp [natDigits]
  | succ n ih => exact digitsSucc_lt_ten _ ih

theorem digitChar_inj (a b : Nat) (ha : a < 10) (hb : b < 10)
    (h : Nat.digitChar a = Nat.digitChar b) : a = b := by
  interval_cases a <;> interval_cases b <;> revert h <;> decide

theorem map_digitChar_inj : ∀ xs ys : List Nat, (∀ d ∈ xs, d < 10) → (∀ d ∈ ys, d < 10) →
    xs.map Nat.digitChar = ys.map Nat.digitChar → xs = ys := by
  intro xs
  induction xs with
  | nil => intro ys _ _ h; cases ys with
    | nil => rfl
    | cons y ys => simp at h
  | cons x xs ih =>
    intro ys hx hy h
    cases ys with
    | nil => simp at h
    | cons y ys =>
      simp only [List.map_cons, List.cons.injEq] at h
      have hxy : x = y :=
        digitChar_inj x y (hx x (List.mem_cons_self x xs)) (hy y (List.mem_cons_self y ys)) h.1
      have := ih ys (fun d hd => hx d (List.mem_cons_of_mem _ hd))
        (fun d hd => hy d (List.mem_cons_of_mem _ hd)) h.2
      rw [hxy, this]

theorem natToString_inj : Function.Injective natToString := by
  intro n m h
  unfold natToString at h
  injection h with h
  have h2 : natDigits n = natDigits m := by
    rw [← List.reverse_inj]
    refine map_digitChar_inj _ _ ?_ ?_ h
    · intro d hd; exact natDigits_lt_ten n d (List.mem_reverse.mp hd)
    · intro d hd; exact natDigits_lt_ten m d (List.mem_reverse.mp hd)
  calc n = digitsVal (natDigits n) := (digitsVal_natDigits n).symm
    _ = digitsVal (natDigits m) := by rw [h2]
    _ = m := digitsVal_natDigits m

theorem agentName_inj : Function.Injective agentName := by
  intro n m h
  unfold agentName at h
  have hd := congrArg String.data h
  rw [String.data_append, String.data_append] at hd
  have : (natToString n).data = (natToString m).data := List.append_cancel_left hd
  exact natToString_inj (String.ext this)

/-! ## C1 -/

/-- C1 (amended): in both executors, a CLICK/TYPE/SELECT/CHECK action whose
`targetId` matches no element of the current document returns
`success := false` with error `Element not found: <id>` and throws nothing;
SCROLL and WAIT never fail for lack of a target in either executor, and
OPEN_URL never fails for lack of a target in the primary executor (the
alternate executor does not exempt OPEN_URL; see the counterexample). -/
theorem c1_element_not_found (dom : Dom) (a : JsAction) :
    (a.type = "CLICK" ∨ a.type = "TYPE" ∨ a.type = "SELECT" ∨ a.type = "CHECK" →
      lookupTarget dom (jsTpl a.targetId) = none →
      (executeAction dom a).result =
        { success := false, error := some ("Element not found: " ++ jsTpl a.targetId) } ∧
      (executeActionAlt dom a).result =
        { success := false, error := some ("Element not found: " ++ jsTpl a.targetId) }) ∧
    (a.type = "SCROLL" ∨ a.type = "WAIT" ∨ a.type = "OPEN_URL" →
      (executeAction dom a).result.success = true) ∧
    (a.type = "SCROLL" ∨ a.type = "WAIT" →
      (executeActionAlt dom a).result.success = true) := by
  obtain ⟨ty, tid, v, o, c, d⟩ := a
  refine ⟨?_, ?_, ?_⟩
  · rintro (h | h | h | h) hl <;> subst h <;>
      simp [executeAction, executeActionAlt, execActionBody, execActionBodyAlt, hl]
  · rintro (h | h | h) <;> subst h <;>
      simp [executeAction, execActionBody]
  · rintro (h | h) <;> subst h <;>
      simp [executeActionAlt, execActionBodyAlt]

/-- C1 counterexample: in the alternate content script, an OPEN_URL action
(which carries no `targetId`) fails with `Element not found`, so it is not
exempt from the target lookup there. -/
theorem c1_counterexample :
    (executeActionAlt {} { type := "OPEN_URL", value := some "example.com" }).result =
      { success := false, error := some "Element not found: undefined" } ∧
    ({ success := false, error := some "Element not found: undefined" } : ExecResult).success ≠ true := by
  exact ⟨by decide, by decide⟩

/-- C1 witness. -/
theorem c1_witness :
    (executeAction {} { type := "CLICK", targetId := some "agent-7" }).result =
      { success := false, error := some "Element not found: agent-7" } ∧
    (executeAction {} { type := "OPEN_URL", value := some "x.com" }).result.success = true := by
  refine ⟨?_, ?_⟩
  · exact ((c1_element_not_found {} { type := "CLICK", targetId := some "agent-7" }).1
      (Or.inl rfl) rfl).1
  · exact (c1_element_not_found {} { type := "OPEN_URL", value := some "x.com" }).2.1
      (Or.inr (Or.inr rfl))

/-! ## C9 -/

/-- C9 (amended): executing a WAIT action (in either executor) sleeps for
`options.duration` milliseconds — not `options.durationMs` — with 1000 used
when the field is absent (or zero, `||` being the defaulting operator),
leaves the page state unchanged, and returns a `success := true` result. -/
theorem c9_wait (dom : Dom) (a : JsAction) (h : a.type = "WAIT") :
    executeAction dom a =
      { result := { success := true, action := some "waited",
                    duration := some (jsOrNat (a.options.bind (·.duration)) 1000) },
        dom := dom,
        slept := [jsOrNat (a.options.bind (·.duration)) 1000] } ∧
    executeActionAlt dom a =
      { result := { success := true, action := some "waited",
                    duration := some (jsOrNat (a.options.bind (·.duration)) 1000) },
        dom := dom,
        slept := [jsOrNat (a.options.bind (·.duration)) 1000] } ∧
    (a.options.bind (·.duration) = none → jsOrNat (a.options.bind (·.duration)) 1000 = 1000) := by
  obtain ⟨ty, tid, v, o, c, d⟩ := a
  simp only at h
  subst h
  refine ⟨?_, ?_, ?_⟩
  · simp [executeAction, execActionBody]
  · simp [executeActionAlt, execActionBodyAlt]
  · intro h; simp [h, jsOrNat]

/-- C9 counterexample: a WAIT action carrying `options.durationMs = 5000`
(and no `options.duration`) sleeps 1000 ms, not 5000 ms: the executor reads
the `duration` field, not `durationMs`. -/
theorem c9_counterexample :
    (executeAction {} { type := "WAIT", options := some { durationMs := some 5000 } }).slept = [1000] ∧
    [1000] ≠ [5000] := by
  exact ⟨by decide, by decide⟩

/-- C9 witness. -/
theorem c9_witness :
    executeAction {} { type := "WAIT" } =
      { result := { success := true, action := some "waited", duration := some 1000 },
        dom := {}, slept := [1000] } := by
  exact (c9_wait {} { type := "WAIT" } rfl).1

/-- Every result the `try` body of `executeAction` returns normally is
well-formed: success, or failure with an error message. -/
theorem execActionBody_wf (dom : Dom) (a : JsAction) (el? : Option PageElement) (key : String) :
    ∀ r d s, execActionBody dom a el? key = (.ok r, d, s) →
      r.success = true ∨ r.error.isSome = true := by
  intro r d s h
  unfold execActionBody at h
  split at h
  all_goals (try split at h)
  all_goals (try split at h)
  all_goals simp_all
  all_goals (rw [← h.1]; simp)

/-- Same for the alternate executor body. -/
theorem execActionBodyAlt_wf (dom : Dom) (a : JsAction) (el? : Option PageElement) (key : String) :
    ∀ r d s, execActionBodyAlt dom a el? key = (.ok r, d, s) →
      r.success = true ∨ r.error.isSome = true := by
  intro r d s h
  unfold execActionBodyAlt at h
  split at h
  all_goals (try split at h)
  all_goals (try split at h)
  all_goals simp_all
  all_goals (rw [← h.1]; simp)

/-! ## C10 -/

/-- C10 (amended): `executeAction` is total and never lets an exception
reach the message handler.  An action of unrecognized type returns
`Unknown action type: <type>` when its `targetId` resolves to an element;
when it does not resolve, the not-found guard fires first and the result is
`Element not found: <id>` (the claim did not account for this case).  An
exception thrown by a click handler is caught and returned as the error
message.  Every failed result carries an error message.  All of this holds
for both executor variants. -/
theorem c10_total (dom : Dom) (a : JsAction) :
    (∀ el, a.type ∉ ["CLICK", "TYPE", "SCROLL", "WAIT", "SELECT", "CHECK", "OPEN_URL"] →
      lookupTarget dom (jsTpl a.targetId) = some el →
      (executeAction dom a).result =
        { success := false, error := some ("Unknown action type: " ++ a.type) } ∧
      (executeActionAlt dom a).result =
        { success := false, error := some ("Unknown action type: " ++ a.type) }) ∧
    (a.type ∉ ["CLICK", "TYPE", "SCROLL", "WAIT", "SELECT", "CHECK", "OPEN_URL"] →
      lookupTarget dom (jsTpl a.targetId) = none →
      (executeAction dom a).result =
        { success := false, error := some ("Element not found: " ++ jsTpl a.targetId) } ∧
      (executeActionAlt dom a).result =
        { success := false, error := some ("Element not found: " ++ jsTpl a.targetId) }) ∧
    (∀ el m, a.type = "CLICK" → lookupTarget dom (jsTpl a.targetId) = some el →
      el.clickError = some m →
      (executeAction dom a).result = { success := false, error := some m } ∧
      (executeActionAlt dom a).result = { success := false, error := some m }) ∧
    ((executeAction dom a).result.success = false → (executeAction dom a).result.error.isSome) ∧
    ((executeActionAlt dom a).result.success = false → (executeActionAlt dom a).result.error.isSome) := by
  refine ⟨?_, ?_, ?_, ?_, ?_⟩
  · intro el hmem hl
    simp only [List.mem_cons, List.not_mem_nil, or_false] at hmem
    push_neg at hmem
    obtain ⟨h1, h2, h3, h4, h5, h6, h7⟩ := hmem
    constructor <;>
      simp [executeAction, executeActionAlt, execActionBody, execActionBodyAlt,
        hl, h1, h2, h3, h4, h5, h6, h7]
  · intro hmem hl
    simp only [List.mem_cons, List.not_mem_nil, or_false] at hmem
    push_neg at hmem
    obtain ⟨h1, h2, h3, h4, h5, h6, h7⟩ := hmem
    constructor <;>
      simp [executeAction, executeActionAlt, execActionBody, execActionBodyAlt,
        hl, h1, h2, h3, h4, h5, h6, h7]
  · intro el m hty hl hce
    obtain ⟨ty, tid, v, o, c, d⟩ := a
    simp only at hty
    subst hty
    constructor <;>
      simp [executeAction, executeActionAlt, execActionBody, execActionBodyAlt, hl, hce]
  · intro hfail
    simp only [executeAction] at hfail ⊢
    by_cases hg : lookupTarget dom (jsTpl a.targetId) = none ∧
        a.type ≠ "SCROLL" ∧ a.type ≠ "WAIT" ∧ a.type ≠ "OPEN_URL"
    · simp [hg]
    · simp only [if_neg hg] at hfail ⊢
      rcases hb : execActionBody dom a (lookupTarget dom (jsTpl a.targetId)) (jsTpl a.targetId)
        with ⟨e, d2, s2⟩
      cases e with
      | error m =>
        try simp only [hb] at hfail ⊢
        simp
      | ok r =>
        try simp only [hb] at hfail ⊢
        try simp only at hfail ⊢
        rcases execActionBody_wf dom a _ _ r d2 s2 hb with h1 | h1
        · rw [hfail] at h1; cases h1
        · exact h1
  · intro hfail
    simp only [executeActionAlt] at hfail ⊢
    by_cases hg : lookupTarget dom (jsTpl a.targetId) = none ∧
        a.type ≠ "SCROLL" ∧ a.type ≠ "WAIT"
    · simp [hg]
    · simp only [if_neg hg] at hfail ⊢
      rcases hb : execActionBodyAlt dom a (lookupTarget dom (jsTpl a.targetId)) (jsTpl a.targetId)
        with ⟨e, d2, s2⟩
      cases e with
      | error m =>
        try simp only [hb] at hfail ⊢
        simp
      | ok r =>
        try simp only [hb] at hfail ⊢
        try simp only at hfail ⊢
        rcases execActionBodyAlt_wf dom a _ _ r d2 s2 hb with h1 | h1
        · rw [hfail] at h1; cases h1
        · exact h1

/-- C10 counterexample: an action of unknown type whose target does not
resolve produces `Element not found`, not `Unknown action type`. -/
theorem c10_counterexample :
    (executeAction {} { type := "FROB" }).result =
      { success := false, error := some "Element not found: undefined" } ∧
    (executeAction {} { type := "FROB" }).result ≠
      { success := false, error := some "Unknown action type: FROB" } := by
  exact ⟨by decide, by decide⟩

/-- C10 witness. -/
theorem c10_witness :
    (executeAction { elements := [{ agentId := some "agent-1" }] }
        { type := "FROB", targetId := some "agent-1" }).result =
      { success := false, error := some "Unknown action type: FROB" } ∧
    (executeAction { elements := [{ agentId := some "agent-1", clickError := some "boom" }] }
        { type := "CLICK", targetId := some "agent-1" }).result =
      { success := false, error := some "boom" } := by
  constructor
  · exact ((c10_total { elements := [{ agentId := some "agent-1" }] }
      { type := "FROB", targetId := some "agent-1" }).1 _ (by decide) rfl).1
  · exact ((c10_total { elements := [{ agentId := some "agent-1", clickError := some "boom" }] }
      { type := "CLICK", targetId := some "agent-1" }).2.2.1 _ "boom" rfl rfl rfl).1

/-! ## C2: the sequencer -/

theorem executeActionsGen_cons (exec : Dom → JsAction → ExecOutcome) (dom : Dom)
    (a : JsAction) (rest : List JsAction) :
    executeActionsGen exec dom (a :: rest) =
      if (exec dom a).result.success = false ∧ a.continueOnError = false
      then [(exec dom a).result]
      else (exec dom a).result :: executeActionsGen exec (exec dom a).dom rest := rfl

theorem seqResults_cons (exec : Dom → JsAction → ExecOutcome) (dom : Dom)
    (a : JsAction) (rest : List JsAction) :
    seqResults exec dom (a :: rest) =
      (exec dom a).result :: seqResults exec (exec dom a).dom rest := rfl

theorem executeActionsGen_ne_nil (exec : Dom → JsAction → ExecOutcome) (dom : Dom)
    (a : JsAction) (rest : List JsAction) :
    executeActionsGen exec dom (a :: rest) ≠ [] := by
  rw [executeActionsGen_cons]
  split <;> simp

/-- Full characterization of the sequencer loop: the returned list is the
prefix of the uninterrupted sequential execution, of length at most the plan
length; every non-final executed action either succeeded or carried
`continueOnError`; and a strictly shorter prefix happens only when its last
result failed with `continueOnError` unset. -/
theorem executeActionsGen_spec (exec : Dom → JsAction → ExecOutcome) :
    ∀ (acts : List JsAction) (dom : Dom),
      executeActionsGen exec dom acts =
        (seqResults exec dom acts).take (executeActionsGen exec dom acts).length ∧
      (executeActionsGen exec dom acts).length ≤ acts.length ∧
      (∀ i r a, i + 1 < (executeActionsGen exec dom acts).length →
        (executeActionsGen exec dom acts).get? i = some r → acts.get? i = some a →
        r.success = true ∨ a.continueOnError = true) ∧
      ((executeActionsGen exec dom acts).length < acts.length →
        ∃ r a,
          (executeActionsGen exec dom acts).get? ((executeActionsGen exec dom acts).length - 1) = some r ∧
          acts.get? ((executeActionsGen exec dom acts).length - 1) = some a ∧
          r.success = false ∧ a.continueOnError = false) := by
  intro acts
  induction acts with
  | nil =>
    intro dom
    refine ⟨rfl, by simp [executeActionsGen], ?_, ?_⟩
    · intro i r a h; simp [executeActionsGen] at h
    · intro h; simp [executeActionsGen] at h
  | cons a rest ih =>
    intro dom
    rw [executeActionsGen_cons, seqResults_cons]
    by_cases hhalt : (exec dom a).result.success = false ∧ a.continueOnError = false
    · rw [if_pos hhalt]
      refine ⟨by simp, by simp, ?_, ?_⟩
      · intro i r b h; simp at h
      · intro _
        exact ⟨(exec dom a).result, a, by simp, by simp, hhalt.1, hhalt.2⟩
    · rw [if_neg hhalt]
      obtain ⟨ih1, ih2, ih3, ih4⟩ := ih (exec dom a).dom
      have hok : (exec dom a).result.success = true ∨ a.continueOnError = true := by
        by_cases h : (exec dom a).result.success = false
        · by_cases h2 : a.continueOnError = false
          · exact absurd ⟨h, h2⟩ hhalt
          · exact Or.inr (by simpa using h2)
        · exact Or.inl (by simpa using h)
      refine ⟨?_, ?_, ?_, ?_⟩
      · simpa using ih1
      · simpa using ih2
      · intro i r b hi hr hb
        match i with
        | 0 =>
          simp at hr hb
          subst hr
          subst hb
          exact hok
        | Nat.succ j =>
          simp only [List.get?_cons_succ] at hr hb
          simp only [List.length_cons] at hi
          exact ih3 j r b (by omega) hr hb
      · intro hlt
        simp only [List.length_cons] at hlt
        have hlt2 : (executeActionsGen exec (exec dom a).dom rest).length < rest.length := by
          omega
        obtain ⟨r, b, hr, hb, hfail, hflag⟩ := ih4 hlt2
        have hpos : 0 < (executeActionsGen exec (exec dom a).dom rest).length := by
          cases rest with
          | nil => simp at hlt2
          | cons x xs =>
            have hne := executeActionsGen_ne_nil exec (exec dom a).dom x xs
            cases hgen : executeActionsGen exec (exec dom a).dom (x :: xs) with
            | nil => exact absurd hgen hne
            | cons y ys => simp
        refine ⟨r, b, ?_, ?_, hfail, hflag⟩
        · simp only [List.length_cons, Nat.add_sub_cancel]
          have : (executeActionsGen exec (exec dom a).dom rest).length =
              ((executeActionsGen exec (exec dom a).dom rest).length - 1) + 1 := by omega
          rw [this, List.get?_cons_succ]
          exact hr
        · simp only [List.length_cons, Nat.add_sub_cancel]
          have : (executeActionsGen exec (exec dom a).dom rest).length =
              ((executeActionsGen exec (exec dom a).dom rest).length - 1) + 1 := by omega
          rw [this, List.get?_cons_succ]
          exact hb

/-- Corollary: a failed action with `continueOnError := true` that is not the
last of the plan is always followed by the execution of the next action. -/
theorem executeActionsGen_continueOnError (exec : Dom → JsAction → ExecOutcome)
    (acts : List JsAction) (dom : Dom) (i : Nat) (r : ExecResult) (a : JsAction)
    (hr : (executeActionsGen exec dom acts).get? i = some r)
    (ha : acts.get? i = some a)
    (_hfail : r.success = false) (hflag : a.continueOnError = true)
    (hnext : i + 1 < acts.length) :
    i + 1 < (executeActionsGen exec dom acts).length := by
  obtain ⟨-, -, -, h4⟩ := executeActionsGen_spec exec acts dom
  by_contra hcon
  have hi : i < (executeActionsGen exec dom acts).length := by
    by_contra hii
    rw [List.get?_eq_none.mpr (by omega)] at hr
    cases hr
  have hieq : i = (executeActionsGen exec dom acts).length - 1 := by omega
  have hlt : (executeActionsGen exec dom acts).length < acts.length := by omega
  obtain ⟨r2, a2, hr2, ha2, -, hflag2⟩ := h4 hlt
  rw [← hieq] at hr2 ha2
  rw [ha] at ha2
  cases ha2
  rw [hflag] at hflag2
  cases hflag2

/-- C2: for both content-script variants, `executeActions` executes actions
strictly in plan order (the result list is a prefix of the uninterrupted
sequential execution); every non-final executed action either succeeded or
carried `continueOnError = true`; when the result list is shorter than the
plan, its last entry is a failure whose action had `continueOnError` unset
(the partial list is what is returned); and a failed action with
`continueOnError = true` that is not last in the plan is always followed by
the execution of the next action. -/
theorem c2_sequencing (dom : Dom) (acts : List JsAction) :
    (executeActions dom acts =
        (seqResults executeAction dom acts).take (executeActions dom acts).length ∧
      (executeActions dom acts).length ≤ acts.length ∧
      (∀ i r a, i + 1 < (executeActions dom acts).length →
        (executeActions dom acts).get? i = some r → acts.get? i = some a →
        r.success = true ∨ a.continueOnError = true) ∧
      ((executeActions dom acts).length < acts.length →
        ∃ r a, (executeActions dom acts).get? ((executeActions dom acts).length - 1) = some r ∧
          acts.get? ((executeActions dom acts).length - 1) = some a ∧
          r.success = false ∧ a.continueOnError = false) ∧
      (∀ i r a, (executeActions dom acts).get? i = some r → acts.get? i = some a →
        r.success = false → a.continueOnError = true → i + 1 < acts.length →
        i + 1 < (executeActions dom acts).length)) ∧
    (executeActionsAlt dom acts =
        (seqResults executeActionAlt dom acts).take (executeActionsAlt dom acts).length ∧
      (executeActionsAlt dom acts).length ≤ acts.length ∧
      (∀ i r a, i + 1 < (executeActionsAlt dom acts).length →
        (executeActionsAlt dom acts).get? i = some r → acts.get? i = some a →
        r.success = true ∨ a.continueOnError = true) ∧
      ((executeActionsAlt dom acts).length < acts.length →
        ∃ r a, (executeActionsAlt dom acts).get? ((executeActionsAlt dom acts).length - 1) = some r ∧
          acts.get? ((executeActionsAlt dom acts).length - 1) = some a ∧
          r.success = false ∧ a.continueOnError = false) ∧
      (∀ i r a, (executeActionsAlt dom acts).get? i = some r → acts.get? i = some a →
        r.success = false → a.continueOnError = true → i + 1 < acts.length →
        i + 1 < (executeActionsAlt dom acts).length)) := by
  obtain ⟨h1, h2, h3, h4⟩ := executeActionsGen_spec executeAction acts dom
  obtain ⟨g1, g2, g3, g4⟩ := executeActionsGen_spec executeActionAlt acts dom
  exact ⟨⟨h1, h2, h3, h4,
      fun i r a hr ha hf hc hn => executeActionsGen_continueOnError executeAction acts dom i r a hr ha hf hc hn⟩,
    ⟨g1, g2, g3, g4,
      fun i r a hr ha hf hc hn => executeActionsGen_continueOnError executeActionAlt acts dom i r a hr ha hf hc hn⟩⟩

/-- C2 witness: a plan whose second action fails halts after the second
action, and the returned list is the corresponding prefix of the sequential
execution. -/
theorem c2_witness :
    executeActions {} [{ type := "WAIT" }, { type := "CLICK", targetId := some "agent-1" },
        { type := "WAIT" }] =
      (seqResults executeAction {} [{ type := "WAIT" }, { type := "CLICK", targetId := some "agent-1" },
        { type := "WAIT" }]).take
        (executeActions {} [{ type := "WAIT" }, { type := "CLICK", targetId := some "agent-1" },
          { type := "WAIT" }]).length ∧
    (executeActions {} [{ type := "WAIT" }, { type := "CLICK", targetId := some "agent-1" },
        { type := "WAIT" }]).length = 2 := by
  refine ⟨(c2_sequencing {} _).1.1, by decide⟩

/-! ## C3 and C4: the side-panel controller -/

/-- When position `i` of the plan holds the first OPEN_URL action and it has
a URL value, the controller loop stops with a navigation to that URL
(https-prefixed when needed), and everything it forwarded lies strictly
before position `i` and is not an OPEN_URL. -/
theorem ctrlLoop_firstOpenUrl (isReady : Bool) :
    ∀ (acts : List JsAction) (idx i : Nat) (a : JsAction) (u : String),
      acts.get? i = some a → a.type = "OPEN_URL" → a.value = some u →
      (∀ j b, j < i → acts.get? j = some b → b.type ≠ "OPEN_URL") →
      ∃ fwd, ctrlLoop isReady idx acts =
          .nav (if strStarts u "http" then u else "https://" ++ u) fwd ∧
        ∀ p ∈ fwd, idx ≤ p.1 ∧ p.1 < idx + i ∧ p.2.type ≠ "OPEN_URL" := by
  intro acts
  induction acts with
  | nil => intro idx i a u hget; simp at hget
  | cons a0 rest ih =>
    intro idx i a u hget hty hval hfirst
    by_cases h0 : a0.type = "OPEN_URL"
    · have hi0 : i = 0 := by
        by_contra hne
        exact hfirst 0 a0 (by omega) (by simp) h0
      subst hi0
      simp only [List.get?_cons_zero, Option.some.injEq] at hget
      subst hget
      refine ⟨[], ?_, by simp⟩
      simp [ctrlLoop, h0, hval]
    · have hipos : 1 ≤ i := by
        rcases Nat.eq_zero_or_pos i with h | h
        · subst h
          simp only [List.get?_cons_zero, Option.some.injEq] at hget
          subst hget
          exact absurd hty h0
        · exact h
      have hget2 : rest.get? (i - 1) = some a := by
        have : i = (i - 1) + 1 := by omega
        rw [this, List.get?_cons_succ] at hget
        exact hget
      have hfirst2 : ∀ j b, j < i - 1 → rest.get? j = some b → b.type ≠ "OPEN_URL" := by
        intro j b hj hb
        exact hfirst (j + 1) b (by omega) (by rw [List.get?_cons_succ]; exact hb)
      obtain ⟨fwd, heq, hprops⟩ := ih (idx + 1) (i - 1) a u hget2 hty hval hfirst2
      by_cases hr : isReady = false
      · refine ⟨fwd, ?_, ?_⟩
        · simp only [ctrlLoop, if_neg h0, if_pos hr]
          exact heq
        · intro p hp
          obtain ⟨hp1, hp2, hp3⟩ := hprops p hp
          exact ⟨by omega, by omega, hp3⟩
      · refine ⟨(idx, a0) :: fwd, ?_, ?_⟩
        · simp only [ctrlLoop, if_neg h0, if_neg hr]
          rw [heq]
        · intro p hp
          rcases List.mem_cons.mp hp with h | h
          · subst h
            exact ⟨le_refl _, by omega, h0⟩
          · obtain ⟨hp1, hp2, hp3⟩ := hprops p h
            exact ⟨by omega, by omega, hp3⟩

/-- C3: when the resolver returns a plan whose first OPEN_URL sits at
position `i` (with a URL value) and an active tab exists, a non-dropped
controller pass performs the navigation itself (scheme-prefixing the URL),
finishes with the `isExecuting` flag released and the intent still recorded
in `pendingIntent` for the post-navigation resume, and forwards to the
page-side executor only actions at positions strictly before `i` — never the
OPEN_URL itself nor anything after it. -/
theorem c3_open_url_interception (st : CtrlState) (intent : String) (isResumption : Bool)
    (env : CtrlEnv) (acts : List JsAction) (i : Nat) (a : JsAction) (u : String) (t : Nat)
    (hguard : ¬(st.isExecuting = true ∧ isResumption = false))
    (hres : env.analyzeResult = .ok acts)
    (htab : env.tab = some t)
    (hget : acts.get? i = some a) (hty : a.type = "OPEN_URL") (hval : a.value = some u)
    (hfirst : ∀ j b, j < i → acts.get? j = some b → b.type ≠ "OPEN_URL") :
    (ctrlExecuteActions st intent isResumption env).2.navigated =
      some (if strStarts u "http" then u else "https://" ++ u) ∧
    (ctrlExecuteActions st intent isResumption env).1.isExecuting = false ∧
    (ctrlExecuteActions st intent isResumption env).1.pendingIntent = some intent ∧
    ∀ p ∈ (ctrlExecuteActions st intent isResumption env).2.forwarded,
      p.1 < i ∧ p.2.type ≠ "OPEN_URL" := by
  have hlen : 0 < acts.length := by
    rcases List.get?_eq_some.mp hget with ⟨h, -⟩
    omega
  obtain ⟨fwd, heq, hprops⟩ := ctrlLoop_firstOpenUrl env.isReady acts 0 i a u hget hty hval hfirst
  unfold ctrlExecuteActions
  rw [if_neg hguard, hres]
  simp only [if_pos hlen, htab, heq]
  refine ⟨trivial, trivial, trivial, ?_⟩
  intro p hp
  obtain ⟨-, hp2, hp3⟩ := hprops p hp
  exact ⟨by omega, hp3⟩

/-- C3 witness. -/
theorem c3_witness :
    (ctrlExecuteActions {} "open example" false
      { analyzeResult := .ok [{ type := "CLICK", targetId := some "agent-1" },
                              { type := "OPEN_URL", value := some "example.com" },
                              { type := "CLICK", targetId := some "agent-2" }] }).2.navigated =
      some "https://example.com" ∧
    (ctrlExecuteActions {} "open example" false
      { analyzeResult := .ok [{ type := "CLICK", targetId := some "agent-1" },
                              { type := "OPEN_URL", value := some "example.com" },
                              { type := "CLICK", targetId := some "agent-2" }] }).1.isExecuting = false := by
  have h := c3_open_url_interception {} "open example" false
    { analyzeResult := .ok [{ type := "CLICK", targetId := some "agent-1" },
                            { type := "OPEN_URL", value := some "example.com" },
                            { type := "CLICK", targetId := some "agent-2" }] }
    [{ type := "CLICK", targetId := some "agent-1" },
     { type := "OPEN_URL", value := some "example.com" },
     { type := "CLICK", targetId := some "agent-2" }]
    1 { type := "OPEN_URL", value := some "example.com" } "example.com" 0
    (by simp) rfl rfl rfl rfl rfl
    (by
      intro j b hj hb
      match j, hj with
      | 0, _ =>
        simp only [List.get?_cons_zero, Option.some.injEq] at hb
        subst hb
        simp)
  exact ⟨h.1, h.2.1⟩

/-- C4 (amended): a controller pass dropped by the `isExecuting` guard
changes nothing.  Every other pass sets `pendingIntent` to the current
intent at its start — whether or not the plan contains an OPEN_URL — and on
completion `pendingIntent` is `none` exactly when the pass resolved to zero
actions or an error occurred (a failed `/api/analyze` call, or an OPEN_URL
without a URL value); in particular, after a plan with one or more actions
and no OPEN_URL completes without error, `pendingIntent` still holds the
intent.  The `isExecuting` flag is always released. -/
theorem c4_pending_intent (st : CtrlState) (intent : String) (isResumption : Bool)
    (env : CtrlEnv) :
    (st.isExecuting = true ∧ isResumption = false →
      ctrlExecuteActions st intent isResumption env = (st, {})) ∧
    (¬(st.isExecuting = true ∧ isResumption = false) →
      (ctrlExecuteActions st intent isResumption env).1.isExecuting = false ∧
      ((ctrlExecuteActions st intent isResumption env).1.pendingIntent = none ∨
       (ctrlExecuteActions st intent isResumption env).1.pendingIntent = some intent) ∧
      ((ctrlExecuteActions st intent isResumption env).1.pendingIntent = none ↔
        (∃ e, env.analyzeResult = .error e) ∨
        env.analyzeResult = .ok [] ∨
        (∃ acts m fwd t, env.analyzeResult = .ok acts ∧ env.tab = some t ∧
          ctrlLoop env.isReady 0 acts = .thrown m fwd))) := by
  constructor
  · intro hguard
    unfold ctrlExecuteActions
    rw [if_pos hguard]
  · intro hguard
    unfold ctrlExecuteActions
    rw [if_neg hguard]
    rcases hres : env.analyzeResult with e | acts
    · refine ⟨rfl, Or.inl rfl, ?_⟩
      simp [hres]
    · dsimp only
      by_cases hlen : 0 < acts.length
      · rw [if_pos hlen]
        rcases htab : env.tab with - | t
        · refine ⟨rfl, Or.inr rfl, ?_⟩
          simp only [hres, htab]
          constructor
          · intro h; cases h
          · rintro (⟨e, he⟩ | he | ⟨acts2, m, fwd, t2, -, ht2, -⟩)
            · cases he
            · injection he with he
              subst he
              simp at hlen
            · cases ht2
        · rcases hloop : ctrlLoop env.isReady 0 acts with ⟨u, fwd⟩ | ⟨m, fwd⟩ | ⟨fwd⟩
          · refine ⟨rfl, Or.inr rfl, ?_⟩
            simp only [hres, htab]
            constructor
            · intro h; cases h
            · rintro (⟨e, he⟩ | he | ⟨acts2, m2, fwd2, t2, ha2, -, hl2⟩)
              · cases he
              · injection he with he
                subst he
                simp at hlen
              · injection ha2 with ha2
                subst ha2
                rw [hloop] at hl2
                cases hl2
          · refine ⟨rfl, Or.inl rfl, ?_⟩
            simp only [hres, htab]
            constructor
            · intro _
              exact Or.inr (Or.inr ⟨acts, m, fwd, t, rfl, rfl, hloop⟩)
            · intro _
              trivial
          · refine ⟨rfl, Or.inr rfl, ?_⟩
            simp only [hres, htab]
            constructor
            · intro h; cases h
            · rintro (⟨e, he⟩ | he | ⟨acts2, m2, fwd2, t2, ha2, -, hl2⟩)
              · cases he
              · injection he with he
                subst he
                simp at hlen
              · injection ha2 with ha2
                subst ha2
                rw [hloop] at hl2
                cases hl2
      · rw [if_neg hlen]
        refine ⟨rfl, Or.inl rfl, ?_⟩
        have hnil : acts = [] := by
          cases acts with
          | nil => rfl
          | cons x xs => simp at hlen
        subst hnil
        simp [hres]

/-- C4 counterexample: a pass that resolves to a single CLICK action (no
OPEN_URL) and completes without error leaves `pendingIntent` equal to the
intent, not `null`: the source sets `pendingIntent` unconditionally at the
start of the pass and clears it only on zero actions or on error. -/
theorem c4_counterexample :
    (ctrlExecuteActions {} "click the button" false
      { analyzeResult := .ok [{ type := "CLICK", targetId := some "agent-1" }] }).1.pendingIntent =
      some "click the button" ∧
    (ctrlExecuteActions {} "click the button" false
      { analyzeResult := .ok [{ type := "CLICK", targetId := some "agent-1" }] }).2.navigated = none ∧
    (ctrlExecuteActions {} "click the button" false
      { analyzeResult := .ok [{ type := "CLICK", targetId := some "agent-1" }] }).2.forwarded =
      [(0, { type := "CLICK", targetId := some "agent-1" })] ∧
    some "click the button" ≠ (none : Option String) := by
  refine ⟨by decide, by decide, by decide, by decide⟩

/-- C4 witness. -/
theorem c4_witness :
    ctrlExecuteActions { isExecuting := true } "x" false
      { analyzeResult := .ok [] } = ({ isExecuting := true }, {}) ∧
    (ctrlExecuteActions {} "x" false { analyzeResult := .error "boom" }).1.pendingIntent = none := by
  constructor
  · exact (c4_pending_intent { isExecuting := true } "x" false
      { analyzeResult := .ok [] }).1 ⟨rfl, rfl⟩
  · exact ((c4_pending_intent {} "x" false { analyzeResult := .error "boom" }).2
      (by simp)).2.2.mpr (Or.inl ⟨"boom", rfl⟩)

/-! ## C5: `findBestMatch` selects the argmax with first-seen tie-break -/

theorem foldr_max_init (l : List Nat) (a b : Nat) :
    l.foldr max (max a b) = max a (l.foldr max b) := by
  induction l with
  | nil => rfl
  | cons x xs ih => simp only [List.foldr, ih, Nat.max_left_comm]

theorem le_foldr_max (l : List Nat) (s : Nat) : s ≤ l.foldr max s := by
  induction l with
  | nil => exact le_refl s
  | cons x xs ih => exact le_trans ih (Nat.le_max_right x _)

/-- The candidate loop of `findBestMatch`, characterized against an arbitrary
accumulated best score `s` / best match `b`: it returns the maximum of `s`
and the non-disabled scores, paired with the first non-disabled element
whose score both exceeds `s` and equals that maximum; the accumulator
survives when nothing exceeds `s`. -/
theorem findBestMatchGo_eq (query : String) (prefs : Option (List String)) :
    ∀ (els : List AgentElement) (s : Nat) (b : Option AgentElement),
      findBestMatchGo query prefs els s b =
        (if s < ((els.filter (fun x => !x.disabled)).map (elementScore query prefs)).foldr max s
         then (((els.filter (fun x => !x.disabled)).map (elementScore query prefs)).foldr max s,
               (els.filter (fun x => !x.disabled)).find?
                 (fun x => elementScore query prefs x =
                   ((els.filter (fun y => !y.disabled)).map (elementScore query prefs)).foldr max s))
         else (s, b)) := by
  intro els
  induction els with
  | nil =>
    intro s b
    simp [findBestMatchGo]
  | cons e rest ih =>
    intro s b
    by_cases hd : e.disabled
    · have hstep : findBestMatchGo query prefs (e :: rest) s b =
          findBestMatchGo query prefs rest s b := by
        simp [findBestMatchGo, hd]
      have hfil : (e :: rest).filter (fun x => !x.disabled) =
          rest.filter (fun x => !x.disabled) := by
        simp [List.filter_cons, hd]
      rw [hstep, ih, hfil]
    · have hfil : (e :: rest).filter (fun x => !x.disabled) =
          e :: rest.filter (fun x => !x.disabled) := by
        simp [List.filter_cons, hd]
      rw [hfil]
      simp only [List.map_cons, List.foldr_cons]
      by_cases hlt : s < elementScore query prefs e
      · have hstep : findBestMatchGo query prefs (e :: rest) s b =
            findBestMatchGo query prefs rest (elementScore query prefs e) (some e) := by
          simp [findBestMatchGo, hd, hlt]
        rw [hstep, ih]
        have hfold :
            ((rest.filter (fun x => !x.disabled)).map (elementScore query prefs)).foldr max
              (elementScore query prefs e) =
            max (elementScore query prefs e)
              (((rest.filter (fun x => !x.disabled)).map (elementScore query prefs)).foldr max s) := by
          conv_lhs =>
            rw [show elementScore query prefs e = max (elementScore query prefs e) s from
              (Nat.max_eq_left (le_of_lt hlt)).symm]
          rw [foldr_max_init]
        by_cases hM : elementScore query prefs e <
            ((rest.filter (fun x => !x.disabled)).map (elementScore query prefs)).foldr max s
        · have hmaxr : max (elementScore query prefs e)
              (((rest.filter (fun x => !x.disabled)).map (elementScore query prefs)).foldr max s) =
              ((rest.filter (fun x => !x.disabled)).map (elementScore query prefs)).foldr max s :=
            Nat.max_eq_right (le_of_lt hM)
          simp only [hfold, hmaxr]
          rw [if_pos hM, if_pos (lt_trans hlt hM),
            List.find?_cons_of_neg _ (by simp; omega)]
        · have hle : ((rest.filter (fun x => !x.disabled)).map (elementScore query prefs)).foldr max s ≤
              elementScore query prefs e := by omega
          have hmaxl : max (elementScore query prefs e)
              (((rest.filter (fun x => !x.disabled)).map (elementScore query prefs)).foldr max s) =
              elementScore query prefs e := Nat.max_eq_left hle
          simp only [hfold, hmaxl]
          rw [if_neg (by omega), if_pos hlt,
            List.find?_cons_of_pos _ (by simp)]
      · have hstep : findBestMatchGo query prefs (e :: rest) s b =
            findBestMatchGo query prefs rest s b := by
          simp [findBestMatchGo, hd, hlt]
        rw [hstep, ih]
        have hse : elementScore query prefs e ≤ s := by omega
        have hsfold : s ≤ ((rest.filter (fun x => !x.disabled)).map (elementScore query prefs)).foldr max s :=
          le_foldr_max _ s
        have hmaxr : max (elementScore query prefs e)
            (((rest.filter (fun x => !x.disabled)).map (elementScore query prefs)).foldr max s) =
            ((rest.filter (fun x => !x.disabled)).map (elementScore query prefs)).foldr max s :=
          Nat.max_eq_right (le_trans hse hsfold)
        simp only [hmaxr]
        by_cases hM : s < ((rest.filter (fun x => !x.disabled)).map (elementScore query prefs)).foldr max s
        · rw [if_pos hM, if_pos hM, List.find?_cons_of_neg _ (by simp; omega)]
        · rw [if_neg hM, if_neg hM]

/-- C5: `findBestMatch` equals the specification-side selection rule: among
non-disabled elements, the one with the highest score wins, ties resolved in
favor of the element seen first, and no element is returned when no score is
positive.  (Scores are `elementScore`: summed lengths of matching lowercase
query words, boosted 1.5x for a preferred type and 2x for a verbatim label
match, kept in half-units.) -/
theorem c5_best_match (els : List AgentElement) (query : String)
    (prefs : Option (List String)) :
    findBestMatch els query prefs = specFindBestMatch els query prefs := by
  unfold findBestMatch specFindBestMatch
  rw [findBestMatchGo_eq]
  by_cases hM : 0 < ((els.filter (fun x => !x.disabled)).map (elementScore query prefs)).foldr max 0
  · simp [hM]
  · simp [hM]

/-! ## C6: the search rule of the fallback resolver -/

/-- C6 (amended): for the intent "search for wireless mouse", when
`findBestMatch` over "search query" among inputs yields element `inp` and
`findBestMatch` over "search submit go" among buttons yields element `btn`,
the fallback resolver returns exactly two actions in order: TYPE
"wireless mouse" into `inp`, then CLICK on `btn`.  (The spec's example
instance — a literal `search` input next to a literal `go` button — does not
satisfy the second premise: preferred types only boost scores, so the
`search` input outscores the `go` button on "search submit go" 12 to 6
half-units and the CLICK lands on the input; see the counterexample.) -/
theorem c6_search_resolver (els : List AgentElement) (inp btn : AgentElement)
    (h1 : findBestMatch els "search query" (some ["input"]) = some inp)
    (h2 : findBestMatch els "search submit go" (some ["button"]) = some btn) :
    generateDemoActions "search for wireless mouse" { elements := some els } =
      [{ type := "TYPE", targetId := some inp.id, value := some "wireless mouse",
         description := some "Type \"wireless mouse\" in search box" },
       { type := "CLICK", targetId := some btn.id, description := some "Click search button" }] := by
  have hlow : lowerStr "search for wireless mouse" = "search for wireless mouse" := by decide
  have e1 : jsMatch clickPat "search for wireless mouse" = none := by decide
  have e2 : jsMatch typePat "search for wireless mouse" = none := by decide
  have e3 : jsMatch searchPat "search for wireless mouse" = some ["wireless mouse"] := by decide
  have e4 : strIncludes "search for wireless mouse" "login" = false := by decide
  have e5 : strIncludes "search for wireless mouse" "sign in" = false := by decide
  have e6 : strIncludes "search for wireless mouse" "scroll" = false := by decide
  unfold generateDemoActions
  simp only [hlow, e1, e2, e3, e4, e5, e6, h1, h2]
  simp [h1, h2]

/-- C6 counterexample: with literally a `search` input and a `go` button,
the resolver does produce two actions TYPE-then-CLICK, but the CLICK targets
the `search` input (`agent-1`), not the button (`agent-2`), contradicting
the claim's example in which the button is clicked. -/
theorem c6_counterexample :
    (generateDemoActions "search for wireless mouse"
      { elements := some [{ id := "agent-1", type := "input", label := some "search" },
                          { id := "agent-2", type := "button", label := some "go" }] }).map
        (fun a => (a.type, a.targetId)) =
      [("TYPE", some "agent-1"), ("CLICK", some "agent-1")] ∧
    (("CLICK", some "agent-1") : String × Option String) ≠ ("CLICK", some "agent-2") := by
  exact ⟨by decide, by decide⟩

/-- C6 witness: an element list in which the button does win the
"search submit go" match. -/
theorem c6_witness :
    generateDemoActions "search for wireless mouse"
      { elements := some [{ id := "agent-1", type := "input", label := some "search" },
                          { id := "agent-2", type := "button", label := some "search go" }] } =
      [{ type := "TYPE", targetId := some "agent-1", value := some "wireless mouse",
         description := some "Type \"wireless mouse\" in search box" },
       { type := "CLICK", targetId := some "agent-2", description := some "Click search button" }] := by
  have h := c6_search_resolver
    [{ id := "agent-1", type := "input", label := some "search" },
     { id := "agent-2", type := "button", label := some "search go" }]
    { id := "agent-1", type := "input", label := some "search" }
    { id := "agent-2", type := "button", label := some "search go" }
    (by decide) (by decide)
  exact h

/-! ## C7: the scraper -/

theorem getElementLabel_ne_empty (e : ScrapeElement) (l : String)
    (h : getElementLabel e = some l) : l ≠ "" := by
  unfold getElementLabel at h
  generalize labelSources e = srcs at h
  induction srcs with
  | nil => simp [List.findSome?] at h
  | cons o rest ih =>
    rw [List.findSome?_cons] at h
    rcases o with - | s
    · exact ih h
    · simp only at h
      by_cases hc : s ≠ "" ∧ trimStr s ≠ ""
      · rw [if_pos hc] at h
        simp only [Option.some.injEq] at h
        subst h
        exact hc.2
      · rw [if_neg hc] at h
        exact ih h

theorem range_map_agentName_shift (n c : Nat) :
    (List.range (n + 1)).map (fun j => agentName (c + j + 1)) =
      agentName (c + 1) :: (List.range n).map (fun j => agentName (c + 1 + j + 1)) := by
  rw [List.range_succ_eq_map, List.map_cons, List.map_map]
  simp only [List.cons.injEq]
  constructor
  · norm_num
  · congr 1
    funext j
    simp only [Function.comp_apply]
    congr 1
    omega

/-- One induction giving the tagging/emission structure of the scrape loop:
the tagged indices are exactly the indices of the visible candidates; the
minted IDs are `agent-<counter+1>`, `agent-<counter+2>`, … in order; the
emitted record IDs form a sublist of the minted IDs; and every emitted label
is non-empty. -/
theorem scrapeGo_spec (win : Window) :
    ∀ (els : List ScrapeElement) (counter idx : Nat),
      (scrapeGo win counter idx els).2.map Prod.fst =
        ((List.enumFrom idx els).filter (fun p => isElementVisible win p.2)).map Prod.fst ∧
      (scrapeGo win counter idx els).2.map Prod.snd =
        (List.range (scrapeGo win counter idx els).2.length).map (fun j => agentName (counter + j + 1)) ∧
      ((scrapeGo win counter idx els).1.map ElementRecord.id).Sublist
        ((scrapeGo win counter idx els).2.map Prod.snd) ∧
      (∀ r ∈ (scrapeGo win counter idx els).1, r.label ≠ "") := by
  intro els
  induction els with
  | nil =>
    intro counter idx
    simp [scrapeGo]
  | cons e rest ih =>
    intro counter idx
    by_cases hv : isElementVisible win e
    · cases hlab : getElementLabel e with
      | none =>
        have hstep : scrapeGo win counter idx (e :: rest) =
            ((scrapeGo win (counter + 1) (idx + 1) rest).1,
             (idx, agentName (counter + 1)) :: (scrapeGo win (counter + 1) (idx + 1) rest).2) := by
          simp [scrapeGo, hv, hlab]
        rw [hstep]
        obtain ⟨ih1, ih2, ih3, ih4⟩ := ih (counter + 1) (idx + 1)
        refine ⟨?_, ?_, ?_, ih4⟩
        · simp only [List.map_cons]
          rw [ih1, List.enumFrom_cons, List.filter_cons, if_pos (by simpa using hv)]
          simp
        · simp only [List.map_cons, List.length_cons]
          rw [ih2, ← range_map_agentName_shift]
        · simp only [List.map_cons]
          exact List.Sublist.cons _ ih3
      | some label =>
        have hstep : scrapeGo win counter idx (e :: rest) =
            ({ id := agentName (counter + 1), type := getElementType e, tag := lowerStr e.tagName,
               label := label, value := jsValOrNull e.value, checked := e.checked,
               disabled := e.disabled,
               position := { x := jsRoundMid e.rect.left e.rect.width,
                             y := jsRoundMid e.rect.top e.rect.height } } ::
               (scrapeGo win (counter + 1) (idx + 1) rest).1,
             (idx, agentName (counter + 1)) :: (scrapeGo win (counter + 1) (idx + 1) rest).2) := by
          simp [scrapeGo, hv, hlab]
        rw [hstep]
        obtain ⟨ih1, ih2, ih3, ih4⟩ := ih (counter + 1) (idx + 1)
        refine ⟨?_, ?_, ?_, ?_⟩
        · simp only [List.map_cons]
          rw [ih1, List.enumFrom_cons, List.filter_cons, if_pos (by simpa using hv)]
          simp
        · simp only [List.map_cons, List.length_cons]
          rw [ih2, ← range_map_agentName_shift]
        · simp only [List.map_cons]
          exact List.Sublist.cons₂ _ ih3
        · intro r hr
          rcases List.mem_cons.mp hr with h | h
          · subst h
            exact getElementLabel_ne_empty e label hlab
          · exact ih4 r h
    · have hstep : scrapeGo win counter idx (e :: rest) = scrapeGo win counter (idx + 1) rest := by
        simp [scrapeGo, hv]
      rw [hstep]
      obtain ⟨ih1, ih2, ih3, ih4⟩ := ih counter (idx + 1)
      refine ⟨?_, ih2, ih3, ih4⟩
      rw [ih1, List.enumFrom_cons, List.filter_cons, if_neg (by simpa using hv)]

/-- C7 (amended): every record emitted by `scrapeDOM` has a non-empty label;
the emitted IDs are pairwise distinct; every emitted ID is one of the minted
`agent-<n>` IDs (counter reset at the start of the scan, numbering from 1),
each emitted record corresponding to a tagged element; but it is the
*visible* candidates — labeled or not — that are tagged with the fresh
sequential IDs, so a visible unlabeled candidate consumes an ID without
emitting a record, and the emitted IDs need not be consecutive (see the
counterexample).  The result is independent of the incoming counter value. -/
theorem c7_scrape_invariants (cIn cIn2 : Nat) (win : Window) (els : List ScrapeElement) :
    (∀ r ∈ (scrapeDOM cIn win els).1.elements, r.label ≠ "") ∧
    ((scrapeDOM cIn win els).1.elements.map ElementRecord.id).Nodup ∧
    (∀ r ∈ (scrapeDOM cIn win els).1.elements, r.id ∈ (scrapeDOM cIn win els).2.map Prod.snd) ∧
    ((scrapeDOM cIn win els).2.map Prod.fst =
      ((List.enumFrom 0 els).filter (fun p => isElementVisible win p.2)).map Prod.fst) ∧
    ((scrapeDOM cIn win els).2.map Prod.snd =
      (List.range (scrapeDOM cIn win els).2.length).map (fun j => agentName (j + 1))) ∧
    scrapeDOM cIn win els = scrapeDOM cIn2 win els := by
  obtain ⟨h1, h2, h3, h4⟩ := scrapeGo_spec win els 0 0
  have hel : (scrapeDOM cIn win els).1.elements = (scrapeGo win 0 0 els).1 := rfl
  have htg : (scrapeDOM cIn win els).2 = (scrapeGo win 0 0 els).2 := rfl
  have hids : (scrapeGo win 0 0 els).2.map Prod.snd =
      (List.range (scrapeGo win 0 0 els).2.length).map (fun j => agentName (j + 1)) := by
    rw [h2]
    congr 1
    funext j
    congr 1
    omega
  have hinj : Function.Injective (fun j => agentName (j + 1)) := by
    intro x y hxy
    have := agentName_inj hxy
    omega
  have hnodup : ((scrapeGo win 0 0 els).2.map Prod.snd).Nodup := by
    rw [hids]
    exact (List.nodup_range _).map hinj
  refine ⟨?_, ?_, ?_, ?_, ?_, rfl⟩
  · rw [hel]; exact h4
  · rw [hel]; exact h3.nodup hnodup
  · intro r hr
    rw [htg]
    rw [hel] at hr
    exact h3.subset (List.mem_map_of_mem ElementRecord.id hr)
  · rw [htg]; exact h1
  · rw [htg]; exact hids

/-- C7 counterexample: a visible labeled candidate, a visible unlabeled
candidate, and another visible labeled candidate.  The unlabeled one emits
no record yet is tagged with `agent-2`, so the emitted IDs are `agent-1`,
`agent-3` — not consecutive, and a dropped element carries a fresh agent
ID, contradicting "exactly the surviving, visible, labeled candidates are
tagged". -/
theorem c7_counterexample :
    ((scrapeDOM 0 {}
      [{ ariaLabel := some "Home", rect := { bottom := 10, right := 10, width := 10, height := 10 } },
       { rect := { bottom := 10, right := 10, width := 10, height := 10 } },
       { ariaLabel := some "About", rect := { bottom := 10, right := 10, width := 10, height := 10 } }]).1.elements.map
        ElementRecord.id = ["agent-1", "agent-3"]) ∧
    ((scrapeDOM 0 {}
      [{ ariaLabel := some "Home", rect := { bottom := 10, right := 10, width := 10, height := 10 } },
       { rect := { bottom := 10, right := 10, width := 10, height := 10 } },
       { ariaLabel := some "About", rect := { bottom := 10, right := 10, width := 10, height := 10 } }]).2 =
      [(0, "agent-1"), (1, "agent-2"), (2, "agent-3")]) ∧
    ("agent-3" : String) ≠ "agent-2" := by
  refine ⟨by decide, by decide, by decide⟩

/-- C7 witness. -/
theorem c7_witness :
    ((scrapeDOM 5 {}
      [{ ariaLabel := some "Home", rect := { bottom := 10, right := 10, width := 10, height := 10 } }]).1.elements.map
        ElementRecord.id).Nodup ∧
    scrapeDOM 5 {}
      [{ ariaLabel := some "Home", rect := { bottom := 10, right := 10, width := 10, height := 10 } }] =
    scrapeDOM 0 {}
      [{ ariaLabel := some "Home", rect := { bottom := 10, right := 10, width := 10, height := 10 } }] := by
  have h := c7_scrape_invariants 5 0 {}
    [{ ariaLabel := some "Home", rect := { bottom := 10, right := 10, width := 10, height := 10 } }]
  exact ⟨h.2.1, h.2.2.2.2.2⟩

/-! ## C8: LLM-first resolution with fallback -/

/-- C8 (amended): plan resolution attempts the reasoning service first,
supplying at most 50 elements; the reply is searched with the greedy pattern
`/\[[\s\S]*\]/` — the span from the first `[` to the *last* `]` — and that
span is JSON-parsed (the spec's words "the first JSON array literal" do not
match this; see the counterexample).  Whenever there is no key, the service
call throws, no span is found, or the span fails to parse, resolution falls
through to the deterministic fallback resolver; the result is always either
the parsed reply or the fallback output — never a surfaced failure. -/
theorem c8_llm_resolution (svc : Except String String) (haveKey : Bool) (intent : String)
    (dom : AgentDom) :
    (promptElements dom).length ≤ 50 ∧
    (haveKey = false →
      generateActionsWithLLM svc haveKey intent dom = .fallback (generateDemoActions intent dom)) ∧
    (∀ e, svc = .error e →
      generateActionsWithLLM svc haveKey intent dom = .fallback (generateDemoActions intent dom)) ∧
    (∀ resp, svc = .ok resp → jsonArraySpan resp = none →
      generateActionsWithLLM svc haveKey intent dom = .fallback (generateDemoActions intent dom)) ∧
    (∀ resp m, svc = .ok resp → jsonArraySpan resp = some m → jsonParse m = none →
      generateActionsWithLLM svc haveKey intent dom = .fallback (generateDemoActions intent dom)) ∧
    ((∃ xs, generateActionsWithLLM svc haveKey intent dom = .llm xs) ∨
      generateActionsWithLLM svc haveKey intent dom = .fallback (generateDemoActions intent dom)) := by
  refine ⟨?_, ?_, ?_, ?_, ?_, ?_⟩
  · unfold promptElements
    rcases dom.elements with - | es
    · simp
    · simp [List.length_take]
  · intro hk
    subst hk
    rfl
  · intro e he
    subst he
    unfold generateActionsWithLLM
    cases haveKey <;> rfl
  · intro resp hok hspan
    subst hok
    unfold generateActionsWithLLM
    cases haveKey
    · rfl
    · simp [hspan]
  · intro resp m hok hspan hparse
    subst hok
    unfold generateActionsWithLLM
    cases haveKey
    · rfl
    · simp [hspan, hparse]
  · unfold generateActionsWithLLM
    cases haveKey
    · exact Or.inr rfl
    · rcases svc with e | resp
      · exact Or.inr rfl
      · rcases hspan : jsonArraySpan resp with - | m
        · exact Or.inr (by simp [hspan])
        · rcases hparse : jsonParse m with - | j
          · exact Or.inr (by simp [hspan, hparse])
          · rcases j with - | b | ⟨neg, mant, ex⟩ | s | xs | kvs
            · exact Or.inl ⟨[], by simp [hspan, hparse]⟩
            · exact Or.inl ⟨[], by simp [hspan, hparse]⟩
            · exact Or.inl ⟨[], by simp [hspan, hparse]⟩
            · exact Or.inl ⟨[], by simp [hspan, hparse]⟩
            · exact Or.inl ⟨xs, by simp [hspan, hparse]⟩
            · exact Or.inl ⟨[], by simp [hspan, hparse]⟩

/-- C8 counterexample: for the reply "[1] and [2]" the greedy span is
"[1] and [2]", which is not valid JSON, so the code falls back to the
deterministic resolver — while parsing the first JSON array literal of the
reply ("[1]", as the specification describes) would return its contents. -/
theorem c8_counterexample :
    generateActionsWithLLM (.ok "[1] and [2]") true "zzz" {} = .fallback [] ∧
    resolveSpecFirstArray (.ok "[1] and [2]") true "zzz" {} = .llm [.num false 1 0] ∧
    ResolveOutcome.fallback [] ≠ ResolveOutcome.llm [.num false 1 0] := by
  refine ⟨rfl, rfl, ?_⟩
  intro h
  cases h

/-- C8 witness. -/
theorem c8_witness :
    (promptElements { elements := some (List.replicate 60 ({} : AgentElement)) }).length ≤ 50 ∧
    generateActionsWithLLM (.error "connect ECONNREFUSED") true "zzz" {} =
      .fallback (generateDemoActions "zzz" {}) := by
  constructor
  · exact (c8_llm_resolution (.error "connect ECONNREFUSED") true "zzz"
      { elements := some (List.replicate 60 ({} : AgentElement)) }).1
  · exact (c8_llm_resolution (.error "connect ECONNREFUSED") true "zzz" {}).2.2.1
      "connect ECONNREFUSED" rfl
